import Mathlib

/-!
Verification of the client-side session/job state layer of the
AWS Educational Video Generator frontend: the chat-history store
(`frontend/src/contexts/chat-history-context.tsx`), the status poller
(`frontend/src/components/status-polling.tsx`), the submission flow
(`frontend/src/components/video-generator.tsx`) and the request helper
(`lib/api.ts` together with `lib/model-config.ts`).

JavaScript runtime values that the store normalizes are embedded as a
JSON-like value type; stateful React code is embedded as explicit state
passing over the provider state, with `Date.now()`, `crypto.randomUUID()`
and `toLocaleTimeString()` supplied as parameters.
-/

set_option linter.unusedVariables false

/-- Parsed JSON value / JavaScript runtime value as it appears at the
normalization boundaries: `null`, booleans, numbers (modelled as integers:
every number this layer itself writes is an integer timestamp, size or
count), strings, arrays and plain objects (insertion-ordered field lists).
A missing object field plays the role of JavaScript `undefined`. -/
inductive JValue where
  | null : JValue
  | bool : Bool → JValue
  | num : Int → JValue
  | str : String → JValue
  | arr : List JValue → JValue
  | obj : List (String × JValue) → JValue

/-- Property read `v[k]`: `none` models JavaScript `undefined` (missing key,
or property access on a primitive or array, which yields `undefined` for
every field name this layer reads). -/
def JValue.get : JValue → String → Option JValue
  | .obj fields, k => fields.lookup k
  | _, _ => none

/-- JavaScript `k in v` (true only for plain objects carrying the key). -/
def JValue.hasKey : JValue → String → Bool
  | .obj fields, k => (fields.lookup k).isSome
  | _, _ => false

mutual

/-- JavaScript `String(v)` coercion on the embedded values. Arrays
stringify by joining their elements with commas (with `null` rendered
empty), objects as the generic object marker. -/
def jsToString : JValue → String
  | .null => "null"
  | .bool b => if b then "true" else "false"
  | .num n => toString n
  | .str s => s
  | .arr xs => jsToStringItems xs
  | .obj _ => "[object Object]"

/-- Comma-joined rendering of array elements for `jsToString`. -/
def jsToStringItems : List JValue → String
  | [] => ""
  | [JValue.null] => ""
  | [x] => jsToString x
  | JValue.null :: xs => "," ++ jsToStringItems xs
  | x :: xs => jsToString x ++ "," ++ jsToStringItems xs

end

/-- JavaScript `Number(v)` coercion, restricted to the integral fragment this
layer can store; `none` models a non-finite result (`NaN`). `Number` of a
numeric string is approximated by integer parsing (the store itself only
writes integer sizes), and `Number` of arrays/objects by `NaN`; both
approximations land in the same `Number.isFinite` fallback the source uses. -/
def jsToNumber : Option JValue → Option Int
  | none => none
  | some .null => some 0
  | some (.bool b) => some (if b then 1 else 0)
  | some (.num n) => some n
  | some (.str s) => if s.trim = "" then some 0 else s.trim.toInt?
  | some (.arr _) => none
  | some (.obj _) => none

/-- Value of `typeof v === "string" ? v : d`. -/
def strOr (v : Option JValue) (d : String) : String :=
  match v with
  | some (.str s) => s
  | _ => d

/-- Value of `typeof v === "string" ? v : undefined`. -/
def strOpt (v : Option JValue) : Option String :=
  match v with
  | some (.str s) => some s
  | _ => none

/-- Value of `typeof v === "number" ? v : d`. -/
def numOr (v : Option JValue) (d : Int) : Int :=
  match v with
  | some (.num n) => n
  | _ => d

/-- Keep the string elements of an array: the source's
`xs.filter(u => typeof u === "string")`. -/
def filterStrings (xs : List JValue) : List String :=
  xs.filterMap fun v => match v with | .str s => some s | _ => none

/-- Value of `Array.isArray(v) ? v.filter(isString) : undefined`. -/
def strArrOpt (v : Option JValue) : Option (List String) :=
  match v with
  | some (.arr xs) => some (filterStrings xs)
  | _ => none

/-- JavaScript `x ?? d` on a possibly missing value (`none` = `undefined`). -/
def nullishOr (v : Option JValue) (d : JValue) : JValue :=
  match v with
  | none => d
  | some .null => d
  | some w => w

/-- JavaScript `x ?? undefined`, collapsing `null` into `undefined`. -/
def nullishOrUndef (v : Option JValue) : Option JValue :=
  match v with
  | some .null => none
  | w => w

/-- JavaScript `a || b` on strings (only the empty string is falsy). -/
def jsOr (a b : String) : String := if a = "" then b else a

/-- types/chat.ts `AttachmentMeta`. -/
structure AttachmentMeta where
  name : String
  size : Int
deriving DecidableEq

/-- types/chat.ts `JobStatusEntry`. -/
structure JobStatusEntry where
  status : String
  progress : Option String
  timestamp : Int
deriving DecidableEq

/-- types/chat.ts `ChatMessage`. `tool` and `data` keep the raw runtime value:
`normalizeMessage` only applies `?? undefined` to `tool` (an unchecked
`as ToolType` cast) and passes `data` through untouched. -/
structure ChatMessage where
  id : String
  role : String
  content : String
  tool : Option JValue
  model : Option String
  attachments : List AttachmentMeta
  status : Option String
  timestamp : Int
  videoUrl : Option String
  imageUrls : Option (List String)
  data : Option JValue
  jobId : Option String

/-- types/chat.ts `SessionJob`. `tool` keeps the raw runtime value because
`normalizeJobs` only applies `?? "video"` to it (unchecked `as ToolType`). -/
structure SessionJob where
  id : String
  tool : JValue
  model : String
  createdAt : Int
  status : String
  progress : Option String
  history : List JobStatusEntry
  videoUrl : Option String
  imageUrls : Option (List String)

/-- chat-history-context.tsx `ChatSession` in its normalized shape. `none` in
`videoUrl`/`jobId` models the stored `null`; `statusHistory` and
`attachments` keep raw array elements because `normalizeSession` merely
casts them; `jobs` models the JavaScript record as an insertion-ordered
association list. -/
structure ChatSession where
  id : String
  prompt : String
  tool : JValue
  model : String
  createdAt : Int
  videoUrl : Option String
  statusHistory : List JValue
  attachments : List JValue
  messages : List ChatMessage
  jobId : Option String
  jobs : List (String × SessionJob)
  pinned : Bool

/-- JavaScript object key assignment `acc[k] = v` on the association-list
model: overwrite in place when the key exists, append otherwise. -/
def insertAssoc {β : Type} : List (String × β) → String → β → List (String × β)
  | [], k, v => [(k, v)]
  | (k', v') :: rest, k, v =>
      if k' = k then (k, v) :: rest else (k', v') :: insertAssoc rest k v

/-- The per-element callback of `normalizeAttachments` (chat-history-context.tsx
lines 69-84). The `attachment && typeof attachment === "object" &&
"name" in attachment` guard is exactly `hasKey "name"` on the embedded
values. -/
def normalizeAttachment (attachment : JValue) : Option AttachmentMeta :=
  if attachment.hasKey "name" then
    match attachment.get "name" with
    | some (.str name) =>
        some { name := name, size := (jsToNumber (attachment.get "size")).getD 0 }
    | _ => none
  else none

/-- chat-history-context.tsx lines 66-86, `normalizeAttachments`. -/
def normalizeAttachments (v : Option JValue) : List AttachmentMeta :=
  match v with
  | some (.arr xs) => xs.filterMap normalizeAttachment
  | _ => []

/-- chat-history-context.tsx lines 88-124, `normalizeMessage`. `fresh` stands
for the generated fallback id and `now` for `Date.now()` (the source draws a
fresh id per call; a shared parameter is observationally identical for
records that already carry ids, which is all the claims exercise). -/
def normalizeMessage (fresh : String) (now : Int) (message : JValue) : Option ChatMessage :=
  match message with
  | .null => none
  | .bool _ => none
  | .num _ => none
  | .str _ => none
  | payload =>
      some
        { id := strOr (payload.get "id") fresh
          role := match payload.get "role" with
            | some (.str "assistant") => "assistant"
            | _ => "user"
          content := strOr (payload.get "content") ""
          tool := nullishOrUndef (payload.get "tool")
          model := strOpt (payload.get "model")
          attachments := normalizeAttachments (payload.get "attachments")
          status := match payload.get "status" with
            | some (.str "success") => some "success"
            | some (.str "error") => some "error"
            | some (.str "info") => some "info"
            | _ => none
          timestamp := numOr (payload.get "timestamp") now
          videoUrl := strOpt (payload.get "videoUrl")
          imageUrls := strArrOpt (payload.get "imageUrls")
          data := payload.get "data"
          jobId := strOpt (payload.get "jobId") }

/-- The per-element callback of `normalizeJobHistory`
(chat-history-context.tsx lines 129-140). -/
def normalizeJobHistoryEntry (now : Int) (entry : JValue) : Option JobStatusEntry :=
  match entry with
  | .null => none
  | .bool _ => none
  | .num _ => none
  | .str _ => none
  | payload =>
      some
        { status := strOr (payload.get "status") "QUEUED"
          progress := strOpt (payload.get "progress")
          timestamp := numOr (payload.get "timestamp") now }

/-- chat-history-context.tsx lines 126-142, `normalizeJobHistory`. -/
def normalizeJobHistory (now : Int) (history : Option JValue) : List JobStatusEntry :=
  match history with
  | some (.arr entries) => entries.filterMap (normalizeJobHistoryEntry now)
  | _ => []

/-- The reduce callback of `normalizeJobs` (chat-history-context.tsx lines
156-189): skip non-object values, rebuild the job with defaults, and store
it under its reconstructed identifier with `acc[id] = ...`. -/
def normalizeJobsStep (now : Int) (acc : List (String × SessionJob))
    (p : JValue × JValue) : List (String × SessionJob) :=
  match p.2 with
  | .null => acc
  | .bool _ => acc
  | .num _ => acc
  | .str _ => acc
  | payload =>
      let id := match payload.get "id" with
        | some (.str s) => s
        | _ => jsToString p.1
      insertAssoc acc id
        { id := id
          tool := nullishOr (payload.get "tool") (.str "video")
          model := strOr (payload.get "model") "aws-nova-reel"
          createdAt := numOr (payload.get "createdAt") now
          status := strOr (payload.get "status") "QUEUED"
          progress := strOpt (payload.get "progress")
          history := normalizeJobHistory now (payload.get "history")
          videoUrl := strOpt (payload.get "videoUrl")
          imageUrls := strArrOpt (payload.get "imageUrls") }

/-- chat-history-context.tsx lines 144-190, `normalizeJobs`. The array branch
keys each entry by its raw `id` property; the object branch keys by the
record's own keys; the reduce rebuilds the record with `acc[id] = ...`. -/
def normalizeJobs (now : Int) (jobs : Option JValue) : List (String × SessionJob) :=
  let entries : List (JValue × JValue) :=
    match jobs with
    | some (.arr items) =>
        items.filterMap fun job =>
          if job.hasKey "id" then
            match job.get "id" with
            | some idv => some (idv, job)
            | none => none
          else none
    | some (.obj fields) => fields.map fun p => (JValue.str p.1, p.2)
    | _ => []
  entries.foldl (normalizeJobsStep now) []

/-- chat-history-context.tsx lines 192-227, `normalizeSession`. The id default
is `String(session.id ?? fresh)`, and `String` of the fresh string id is
itself. -/
def normalizeSession (fresh : String) (now : Int) (session : JValue) : ChatSession :=
  let rawMessages := match session.get "messages" with
    | some (.arr ms) => ms
    | _ => []
  { id := match session.get "id" with
      | none => fresh
      | some .null => fresh
      | some v => jsToString v
    prompt := match session.get "prompt" with
      | some (.str s) => s
      | _ => match session.get "script" with
             | some (.str s) => s
             | _ => ""
    tool := nullishOr (session.get "tool") (.str "video")
    model := match session.get "model" with
      | some (.str s) => s
      | _ => match session.get "style" with
             | some (.str s) => s
             | _ => "aws-nova-reel"
    createdAt := numOr (session.get "createdAt") now
    videoUrl := strOpt (session.get "videoUrl")
    statusHistory := match session.get "statusHistory" with
      | some (.arr xs) => xs
      | _ => []
    attachments := match session.get "attachments" with
      | some (.arr xs) => xs
      | _ => []
    messages := rawMessages.filterMap (normalizeMessage fresh now)
    jobId := strOpt (session.get "jobId")
    jobs := normalizeJobs now (session.get "jobs")
    pinned := match session.get "pinned" with
      | some (.bool b) => b
      | _ => false }

/-- chat-history-context.tsx lines 229-241, `readStorage`, as a function of
the parsed JSON value. A `null` element makes `normalizeSession` throw on
property access and the surrounding try/catch yields `[]`; a non-array
parse result makes `.map` throw with the same effect. The comparator
`(a, b) => b.createdAt - a.createdAt` orders newest-first; JavaScript's
sort is stable, modelled by a stable merge sort. -/
def readStorage (fresh : String) (now : Int) (raw : JValue) : List ChatSession :=
  match raw with
  | .arr items =>
      if items.any (fun v => match v with | JValue.null => true | _ => false) then []
      else (items.map (normalizeSession fresh now)).mergeSort
             (fun a b => decide (b.createdAt ≤ a.createdAt))
  | _ => []

/-- Conditionally present JSON field: `JSON.stringify` drops object
properties whose value is `undefined` (modelled by `none`). -/
def optField (k : String) (v : Option JValue) : List (String × JValue) :=
  match v with
  | some w => [(k, w)]
  | none => []

/-- JSON image of a `JobStatusEntry` (the object literal shared by
`appendJobStatus` and `normalizeJobHistory`). -/
def entryToJValue (e : JobStatusEntry) : JValue :=
  .obj ([("status", .str e.status)]
    ++ optField "progress" (e.progress.map .str)
    ++ [("timestamp", .num e.timestamp)])

/-- JSON image of an `AttachmentMeta`. -/
def attToJValue (a : AttachmentMeta) : JValue :=
  .obj [("name", .str a.name), ("size", .num a.size)]

/-- JSON image of a `ChatMessage`, in the field order of the
`normalizeMessage` literal, with `undefined`-valued fields dropped. -/
def msgToJValue (m : ChatMessage) : JValue :=
  .obj ([("id", .str m.id), ("role", .str m.role), ("content", .str m.content)]
    ++ optField "tool" m.tool
    ++ optField "model" (m.model.map .str)
    ++ [("attachments", .arr (m.attachments.map attToJValue))]
    ++ optField "status" (m.status.map .str)
    ++ [("timestamp", .num m.timestamp)]
    ++ optField "videoUrl" (m.videoUrl.map .str)
    ++ optField "imageUrls" (m.imageUrls.map (fun us => .arr (us.map .str)))
    ++ optField "data" m.data
    ++ optField "jobId" (m.jobId.map .str))

/-- JSON image of a `SessionJob`, in the field order of the `normalizeJobs`
literal. -/
def jobToJValue (j : SessionJob) : JValue :=
  .obj ([("id", .str j.id), ("tool", j.tool), ("model", .str j.model),
      ("createdAt", .num j.createdAt), ("status", .str j.status)]
    ++ optField "progress" (j.progress.map .str)
    ++ [("history", .arr (j.history.map entryToJValue))]
    ++ optField "videoUrl" (j.videoUrl.map .str)
    ++ optField "imageUrls" (j.imageUrls.map (fun us => .arr (us.map .str))))

/-- JSON image of a normalized `ChatSession`, in the field order of the
`normalizeSession` literal. `videoUrl` and `jobId` are always present
(`null` when absent), matching the normalized shape. -/
def sessionToJValue (s : ChatSession) : JValue :=
  .obj [("id", .str s.id), ("prompt", .str s.prompt), ("tool", s.tool),
    ("model", .str s.model), ("createdAt", .num s.createdAt),
    ("videoUrl", match s.videoUrl with | some u => .str u | none => .null),
    ("statusHistory", .arr s.statusHistory),
    ("attachments", .arr s.attachments),
    ("messages", .arr (s.messages.map msgToJValue)),
    ("jobId", match s.jobId with | some u => .str u | none => .null),
    ("jobs", .obj (s.jobs.map fun p => (p.1, jobToJValue p.2))),
    ("pinned", .bool s.pinned)]

/-- Provider state of `ChatHistoryProvider` (chat-history-context.tsx lines
243-248): the session collection and the active-session pointer. Every
state update below is one functional `setSessions`/`setActiveSessionId`
update, so sequential composition models the serialized update queue. -/
structure StoreState where
  sessions : List ChatSession
  activeSessionId : Option String

/-- TypeScript `Partial<SessionJob>`: `none` means the key is absent from the
payload object, so the spread `{ ...job, ...payload }` keeps the field. -/
structure SessionJobPatch where
  id : Option String
  tool : Option JValue
  model : Option String
  createdAt : Option Int
  status : Option String
  progress : Option String
  history : Option (List JobStatusEntry)
  videoUrl : Option String
  imageUrls : Option (List String)

/-- The empty `Partial<SessionJob>` payload. -/
def emptyJobPatch : SessionJobPatch :=
  { id := none, tool := none, model := none, createdAt := none, status := none,
    progress := none, history := none, videoUrl := none, imageUrls := none }

/-- Spread merge `{ ...job, ...payload }`. -/
def applyJobPatch (job : SessionJob) (p : SessionJobPatch) : SessionJob :=
  { id := p.id.getD job.id
    tool := p.tool.getD job.tool
    model := p.model.getD job.model
    createdAt := p.createdAt.getD job.createdAt
    status := p.status.getD job.status
    progress := match p.progress with | some s => some s | none => job.progress
    history := p.history.getD job.history
    videoUrl := match p.videoUrl with | some s => some s | none => job.videoUrl
    imageUrls := match p.imageUrls with | some u => some u | none => job.imageUrls }

/-- TypeScript `Partial<ChatSession>` (same absent-key convention). -/
structure SessionPatch where
  id : Option String
  prompt : Option String
  tool : Option JValue
  model : Option String
  createdAt : Option Int
  videoUrl : Option (Option String)
  statusHistory : Option (List JValue)
  attachments : Option (List JValue)
  messages : Option (List ChatMessage)
  jobId : Option (Option String)
  jobs : Option (List (String × SessionJob))
  pinned : Option Bool

/-- The empty `Partial<ChatSession>` payload. -/
def emptySessionPatch : SessionPatch :=
  { id := none, prompt := none, tool := none, model := none, createdAt := none,
    videoUrl := none, statusHistory := none, attachments := none,
    messages := none, jobId := none, jobs := none, pinned := none }

/-- Spread merge `{ ...session, ...payload }`. -/
def applySessionPatch (s : ChatSession) (p : SessionPatch) : ChatSession :=
  { id := p.id.getD s.id
    prompt := p.prompt.getD s.prompt
    tool := p.tool.getD s.tool
    model := p.model.getD s.model
    createdAt := p.createdAt.getD s.createdAt
    videoUrl := p.videoUrl.getD s.videoUrl
    statusHistory := p.statusHistory.getD s.statusHistory
    attachments := p.attachments.getD s.attachments
    messages := p.messages.getD s.messages
    jobId := p.jobId.getD s.jobId
    jobs := p.jobs.getD s.jobs
    pinned := p.pinned.getD s.pinned }

/-- chat-history-context.tsx lines 264-287, `createSession`. When a session
with the same id exists, the spread `{ ...existing, ...session, messages:
session.messages ?? existing.messages, jobs: session.jobs ?? existing.jobs }`
takes every field from the (fully populated) incoming session, so the merge
result is the incoming session; otherwise the session is inserted at the
front. Either way it becomes active. -/
def createSession (session : ChatSession) (st : StoreState) : StoreState :=
  let sessions :=
    match st.sessions.findIdx? (fun item => item.id == session.id) with
    | some i => st.sessions.set i session
    | none => session :: st.sessions
  { sessions := sessions, activeSessionId := some session.id }

/-- JavaScript `l.slice(-n)`: the last `n` elements. -/
def lastN {α : Type} (n : Nat) (l : List α) : List α := l.drop (l.length - n)

/-- chat-history-context.tsx lines 289-300, `appendStatus`:
`[...statusHistory, status].slice(-50)`. -/
def appendStatus (id status : String) (st : StoreState) : StoreState :=
  { st with sessions := st.sessions.map fun session =>
      if session.id = id then
        { session with statusHistory := lastN 50 (session.statusHistory ++ [.str status]) }
      else session }

/-- chat-history-context.tsx lines 302-308, `updateSession`. -/
def updateSession (id : String) (payload : SessionPatch) (st : StoreState) : StoreState :=
  { st with sessions := st.sessions.map fun session =>
      if session.id = id then applySessionPatch session payload else session }

/-- chat-history-context.tsx lines 310-321, `appendMessage`. -/
def appendMessage (id : String) (message : ChatMessage) (st : StoreState) : StoreState :=
  { st with sessions := st.sessions.map fun session =>
      if session.id = id then { session with messages := session.messages ++ [message] }
      else session }

/-- chat-history-context.tsx lines 323-337, `registerJob`:
`{ ...jobs, [job.id]: job }`. -/
def registerJob (sessionId : String) (job : SessionJob) (st : StoreState) : StoreState :=
  { st with sessions := st.sessions.map fun session =>
      if session.id = sessionId then
        { session with jobs := insertAssoc session.jobs job.id job }
      else session }

/-- chat-history-context.tsx lines 339-361, `updateJob`: no-op when the job is
absent, else `{ ...jobs, [jobId]: { ...job, ...payload } }`. -/
def updateJob (sessionId jobId : String) (payload : SessionJobPatch) (st : StoreState) : StoreState :=
  { st with sessions := st.sessions.map fun session =>
      if session.id = sessionId then
        match session.jobs.lookup jobId with
        | none => session
        | some job =>
            { session with jobs := insertAssoc session.jobs jobId (applyJobPatch job payload) }
      else session }

/-- chat-history-context.tsx lines 363-393, `appendJobStatus`: builds a fresh
entry from the pair and `Date.now()` (the `now` parameter), then, when the
job exists, overwrites status/progress and appends the entry to the
history unconditionally. -/
def appendJobStatus (sessionId jobId status : String) (progress : Option String)
    (now : Int) (st : StoreState) : StoreState :=
  let entry : JobStatusEntry := { status := status, progress := progress, timestamp := now }
  { st with sessions := st.sessions.map fun session =>
      if session.id = sessionId then
        match session.jobs.lookup jobId with
        | none => session
        | some job =>
            { session with jobs := (insertAssoc session.jobs jobId
                { job with
                  status := status
                  progress := progress
                  history := job.history ++ [entry] }) }
      else session }

/-- chat-history-context.tsx lines 395-398, `deleteSession`. -/
def deleteSession (id : String) (st : StoreState) : StoreState :=
  { sessions := st.sessions.filter (fun session => session.id != id)
    activeSessionId := if st.activeSessionId = some id then none else st.activeSessionId }

/-- chat-history-context.tsx lines 408-422, `duplicateSession`; `fresh` models
`crypto.randomUUID()` and `now` models `Date.now()`. The source's
`[...messages]` / `{ ...jobs }` shallow copies are implicit in the value
model. -/
def duplicateSession (fresh : String) (now : Int) (id : String) (st : StoreState) : StoreState :=
  match st.sessions.find? (fun s => s.id == id) with
  | none => st
  | some source =>
      let clone : ChatSession :=
        { source with
          id := fresh
          createdAt := now
          prompt := source.prompt ++ " (copy)"
          messages := source.messages
          jobs := source.jobs
          pinned := false }
      { sessions := clone :: st.sessions, activeSessionId := some fresh }

/-- status-polling.tsx lines 17-23, the status response shape (`variations`
is unread by the poller and omitted). `none` models `null`/absent. -/
structure JobStatus where
  status : String
  progress : String
  video_url : Option String
  image_urls : Option (List String)

/-- Component-local state of `StatusPolling`: the `isPolling`,
`failureCount` and `status` React states and the `lastStatusRef` ref
(initialized to the empty string). -/
structure PollerState where
  isPolling : Bool
  failureCount : Nat
  lastStatusRef : String
  lastData : Option JobStatus

/-- Poller state when a polling effect starts for a job: polling enabled,
zero failures, cleared last-status marker, no payload yet. -/
def initialPollerState : PollerState :=
  { isPolling := true, failureCount := 0, lastStatusRef := "", lastData := none }

/-- Callback invocations of the poller (`onSuccess` / `onError`). -/
inductive PollEvent where
  | success (data : JobStatus) (jobId : String)
  | failure (message : String) (jobId : String)

/-- Outcome of one status fetch: `ok` is a successful round trip with the
parsed body; `err` is any thrown failure (network rejection, the explicit
`!response.ok` throw, or a body-parse error), carrying its message. -/
inductive PollResult where
  | ok (data : JobStatus)
  | err (message : String)

/-- Truthiness of an optional string (`if (data.video_url)`): present and
non-empty. -/
def truthyStr : Option String → Bool
  | some s => s != ""
  | none => false

/-- status-polling.tsx lines 55-127, one settled execution of `pollStatus`:
`timeStr` models `new Date().toLocaleTimeString()` and `now` the
`Date.now()` inside `appendJobStatus`. Returns the poller-local state, the
store, and the callbacks invoked, in order. -/
def pollStep (sessionId jobId timeStr : String) (now : Int) (res : PollResult)
    (ps : PollerState) (st : StoreState) : PollerState × StoreState × List PollEvent :=
  match res with
  | .ok data =>
      let ps1 : PollerState := { ps with lastData := some data, failureCount := 0 }
      let st1 := appendJobStatus sessionId jobId data.status (some data.progress) now st
      let st2 := updateJob sessionId jobId
        { emptyJobPatch with status := some data.status, progress := some data.progress } st1
      let readableStatus := data.status.replace "_" " "
      let statusKey := data.status ++ "-" ++ data.progress
      let stepDedup : PollerState × StoreState :=
        if statusKey = ps.lastStatusRef then (ps1, st2)
        else ({ ps1 with lastStatusRef := statusKey },
              appendStatus sessionId
                (timeStr ++ " • " ++ readableStatus ++ " — " ++ jsOr data.progress "") st2)
      let ps2 := stepDedup.1
      let st3 := stepDedup.2
      if data.status = "COMPLETED" then
        let st4 := if truthyStr data.video_url then
            updateJob sessionId jobId
              { emptyJobPatch with
                videoUrl := data.video_url
                status := some data.status
                progress := some data.progress }
              (updateSession sessionId
                { emptySessionPatch with videoUrl := some data.video_url } st3)
          else st3
        let st5 := if data.image_urls.isSome then
            updateJob sessionId jobId
              { emptyJobPatch with
                imageUrls := data.image_urls
                status := some data.status
                progress := some data.progress } st4
          else st4
        ({ ps2 with isPolling := false }, st5, [.success data jobId])
      else if data.status = "FAILED" then
        let failureMessage := jsOr data.progress "Generation failed"
        let st4 := updateJob sessionId jobId
          { emptyJobPatch with status := some "FAILED", progress := some failureMessage } st3
        let st5 := appendStatus sessionId (timeStr ++ " • FAILED — " ++ failureMessage) st4
        ({ ps2 with isPolling := false }, st5, [.failure failureMessage jobId])
      else (ps2, st3, [])
  | .err message =>
      let st1 := appendStatus sessionId (timeStr ++ " • RETRYING — " ++ message) st
      let st2 := appendJobStatus sessionId jobId "RETRYING" (some message) now st1
      let nextFailures := ps.failureCount + 1
      if nextFailures > 10 then
        ({ ps with failureCount := nextFailures, isPolling := false }, st2,
         [.failure "Connection lost. Please try again." jobId])
      else
        ({ ps with failureCount := nextFailures }, st2, [])

/-- One scheduled polling tick: its wall-clock strings and fetch outcome. -/
structure PollTick where
  timeStr : String
  now : Int
  result : PollResult

/-- Accumulated observable polling run: poller state, store, callback
invocations, and the number of status queries actually issued. -/
structure RunAcc where
  ps : PollerState
  st : StoreState
  events : List PollEvent
  queries : Nat

/-- Repeated polling (status-polling.tsx lines 52-132): each scheduled tick
runs `pollStatus` only while the effect is live (`isPolling`); after
`setIsPolling(false)` the effect body returns before fetching, so no
further query is issued. -/
def pollRun (sessionId jobId : String) : List PollTick → RunAcc → RunAcc
  | [], acc => acc
  | t :: ticks, acc =>
      if acc.ps.isPolling then
        let r := pollStep sessionId jobId t.timeStr t.now t.result acc.ps acc.st
        pollRun sessionId jobId ticks
          { ps := r.1, st := r.2.1, events := acc.events ++ r.2.2, queries := acc.queries + 1 }
      else pollRun sessionId jobId ticks acc

/-- video-generator.tsx lines 275-307: the video branch of `handleSubmit`
once the submission returned a job id — register the job with an empty
history, record the initial QUEUED entry, log to the session status list,
point the session at the job, and post the assistant info message. `now`
models the `Date.now()` calls, `timeStr` the formatted time and `msgId`
the generated message id. -/
def submitVideoJob (sessionId jobId model timeStr msgId : String) (now : Int)
    (st : StoreState) : StoreState :=
  let st1 := registerJob sessionId
    { id := jobId, tool := .str "video", model := model, createdAt := now,
      status := "QUEUED", progress := some "Awaiting generation...",
      history := [], videoUrl := none, imageUrls := none } st
  let st2 := appendJobStatus sessionId jobId "QUEUED" (some "Awaiting generation...") now st1
  let st3 := appendStatus sessionId (timeStr ++ " • Job queued with " ++ model) st2
  let st4 := updateSession sessionId { emptySessionPatch with jobId := some (some jobId) } st3
  appendMessage sessionId
    { id := msgId, role := "assistant"
      content := "Running " ++ model ++ ". I will share status updates here."
      tool := some (.str "video"), model := some model, attachments := []
      status := some "info", timestamp := now, videoUrl := none
      imageUrls := none, data := none, jobId := some jobId } st4

/-- video-generator.tsx lines 412-478, `handleJobSuccess`, with non-null
session and job identifiers. `activeJobModel` is `none` when that React
state is null. The absent optional keys of the posted message literals are
embedded as their normalized defaults (empty attachments, no media). -/
def handleJobSuccess (sessionId jobId : String) (payload : JobStatus) (now : Int)
    (msgId : String) (activeJobModel : Option String) (selectedModel : String)
    (st : StoreState) : StoreState :=
  let job := (st.sessions.find? (fun s => s.id == sessionId)).bind
    (fun s => s.jobs.lookup jobId)
  if truthyStr payload.video_url then
    let st1 := updateJob sessionId jobId
      { emptyJobPatch with
        status := some "COMPLETED"
        progress := some (jsOr payload.progress "Assets ready")
        videoUrl := payload.video_url } st
    let st2 := appendJobStatus sessionId jobId "COMPLETED"
      (some (jsOr payload.progress "Video ready")) now st1
    appendMessage sessionId
      { id := msgId, role := "assistant", content := "Your video is ready!"
        status := some "success", timestamp := now, videoUrl := payload.video_url
        tool := some (nullishOr (job.map (fun j => j.tool)) (.str "video"))
        model := some (match job with
          | some j => j.model
          | none => activeJobModel.getD selectedModel)
        attachments := [], imageUrls := none, data := none, jobId := some jobId } st2
  else if (payload.image_urls.getD []).length > 0 then
    let urls := payload.image_urls.getD []
    let st1 := updateJob sessionId jobId
      { emptyJobPatch with
        status := some "COMPLETED"
        progress := some (jsOr payload.progress "Assets ready")
        imageUrls := some urls } st
    let st2 := appendJobStatus sessionId jobId "COMPLETED"
      (some (jsOr payload.progress "Images ready")) now st1
    appendMessage sessionId
      { id := msgId, role := "assistant"
        content := "Generated " ++ toString urls.length ++ " "
          ++ (if urls.length > 1 then "images" else "image") ++ " with "
          ++ (match job with | some j => j.model | none => selectedModel) ++ "."
        status := some "success", timestamp := now, videoUrl := none
        tool := some (nullishOr (job.map (fun j => j.tool)) (.str "image"))
        model := some (match job with | some j => j.model | none => selectedModel)
        attachments := [], imageUrls := some urls, data := none, jobId := some jobId } st2
  else st

/-- lib/model-config.ts line 1, `ToolType`. -/
inductive ToolType where
  | video
  | image
deriving DecidableEq

/-- String form of a `ToolType` (its TypeScript literal value). -/
def ToolType.name : ToolType → String
  | .video => "video"
  | .image => "image"

/-- lib/model-config.ts lines 6-25, the static `MODEL_CONFIG` endpoint
lookup table. -/
def MODEL_CONFIG : ToolType → List (String × String)
  | .video =>
      [("aws-nova-reel", "/api/video/nova"),
       ("text-to-video-ms-1.7b", "/api/video/ali-vilab/text-to-video-ms-1.7b"),
       ("cerspense/zeroscope_v2_576w", "/api/video/cerspense/zeroscope_v2_576w"),
       ("Lightricks/LTX-Video-0.9.7-dev", "/api/video/Lightricks/LTX-Video-0.9.7-dev"),
       ("camenduru/potat1", "/api/video/camenduru/potat1")]
  | .image =>
      [("stabilityai/stable-diffusion-xl-base-1.0",
          "/api/image/stabilityai/stable-diffusion-xl-base-1.0"),
       ("stable-diffusion-v1-5/stable-diffusion-v1-5",
          "/api/image/stable-diffusion-v1-5/stable-diffusion-v1-5"),
       ("Lykon/DreamShaper", "/api/image/Lykon/DreamShaper"),
       ("CompVis/stable-diffusion-v1-4", "/api/image/CompVis/stable-diffusion-v1-4"),
       ("dreamlike-art/dreamlike-photoreal-2.0",
          "/api/image/dreamlike-art/dreamlike-photoreal-2.0")]

/-- Outcome of the `fetch` in `submitToolRequest`: HTTP success flag and the
parsed JSON body (`.null` when `response.json()` threw, matching the
source's `payload = null` fallback). -/
structure HttpResponse where
  ok : Bool
  body : JValue

/-- lib/api.ts `ToolResponse`. -/
structure ToolResponse where
  jobId : Option String
  data : JValue
  endpoint : String

/-- lib/api.ts lines 96-149 (src/unnamed/part_005), `submitToolRequest`, as a
function of the (tool, model) pair and the HTTP outcome. The second
component counts network requests issued: the configuration-error path
throws before `fetch` and performs none. Building the multipart body has
no observable effect on the returned value and is not modelled. -/
def submitToolRequest (tool : ToolType) (model : String) (response : HttpResponse) :
    Except String ToolResponse × Nat :=
  match (MODEL_CONFIG tool).lookup model with
  | none =>
      (.error ("Model \"" ++ model ++ "\" is not configured for " ++ tool.name ++ "."), 0)
  | some endpointPath =>
      let payload := response.body
      if response.ok then
        let jobId := if payload.hasKey "job_id"
          then some (jsToString ((payload.get "job_id").getD .null))
          else none
        (.ok { jobId := jobId, data := payload, endpoint := endpointPath }, 1)
      else
        let message := if payload.hasKey "detail"
          then jsToString ((payload.get "detail").getD .null)
          else "Request failed"
        (.error message, 1)

/-! Generic lemmas about the association-list and slicing primitives. -/

/-- Lookup at the head key of a field list. -/
@[simp] theorem lookup_cons_self {β : Type} (k : String) (v : β) (t : List (String × β)) :
    List.lookup k ((k, v) :: t) = some v := by
  simp [List.lookup]

/-- Lookup skips a head entry with a different key. -/
@[simp] theorem lookup_cons_ne {β : Type} {k a : String} (h : ¬ k = a) (v : β)
    (t : List (String × β)) :
    List.lookup k ((a, v) :: t) = List.lookup k t := by
  simp only [List.lookup, beq_eq_false_iff_ne.mpr h]

/-- Lookup distributes over appended field lists. -/
@[simp] theorem lookup_append {β : Type} (k : String) (l₁ l₂ : List (String × β)) :
    List.lookup k (l₁ ++ l₂) = (List.lookup k l₁).or (List.lookup k l₂) := by
  induction l₁ with
  | nil => simp
  | cons p t ih =>
      obtain ⟨a, b⟩ := p
      by_cases hk : k = a
      · subst hk
        simp
      · simp [lookup_cons_ne hk, ih]

/-- Lookup of a conditional field under its own key returns its value. -/
@[simp] theorem lookup_optField_self (k : String) (v : Option JValue) :
    List.lookup k (optField k v) = v := by
  cases v <;> simp [optField, List.lookup]

/-- Lookup of a conditional field under a different key misses. -/
@[simp] theorem lookup_optField_of_ne {k k2 : String} (h : ¬ k = k2) (v : Option JValue) :
    List.lookup k (optField k2 v) = none := by
  cases v
  · simp [optField, List.lookup]
  · simp [optField, lookup_cons_ne h]

/-- Lookup immediately after the matching assignment. -/
theorem lookup_insertAssoc_self {β : Type} (l : List (String × β)) (k : String) (v : β) :
    List.lookup k (insertAssoc l k v) = some v := by
  induction l with
  | nil => simp [insertAssoc]
  | cons p t ih =>
      obtain ⟨a, b⟩ := p
      by_cases ha : a = k
      · simp [insertAssoc, ha]
      · have hk : ¬ k = a := fun hk => ha hk.symm
        simp [insertAssoc, ha, lookup_cons_ne hk, ih]

/-- Lookup after an assignment to a different key. -/
theorem lookup_insertAssoc_of_ne {β : Type} (l : List (String × β)) {k k2 : String}
    (h : ¬ k = k2) (v : β) :
    List.lookup k (insertAssoc l k2 v) = List.lookup k l := by
  induction l with
  | nil =>
      rw [insertAssoc, lookup_cons_ne h]
  | cons p t ih =>
      obtain ⟨a, b⟩ := p
      by_cases ha : a = k2
      · subst ha
        simp [insertAssoc, lookup_cons_ne h]
      · by_cases hk : k = a
        · subst hk
          simp [insertAssoc, ha]
        · simp [insertAssoc, ha, lookup_cons_ne hk, ih]

/-- Overwriting the same key twice keeps only the second assignment. -/
theorem insertAssoc_insertAssoc {β : Type} (l : List (String × β)) (k : String) (v v2 : β) :
    insertAssoc (insertAssoc l k v) k v2 = insertAssoc l k v2 := by
  induction l with
  | nil => simp [insertAssoc]
  | cons p t ih =>
      obtain ⟨a, b⟩ := p
      by_cases ha : a = k
      · simp [insertAssoc, ha]
      · simp [insertAssoc, ha, ih]

/-- Membership in an updated association list. -/
theorem mem_insertAssoc {β : Type} {l : List (String × β)} {k : String} {v : β}
    {p : String × β} (hp : p ∈ insertAssoc l k v) : p ∈ l ∨ p = (k, v) := by
  induction l with
  | nil => simp [insertAssoc] at hp; simp [hp]
  | cons q t ih =>
      obtain ⟨a, b⟩ := q
      by_cases ha : a = k
      · simp [insertAssoc, ha] at hp
        rcases hp with hp | hp
        · right; simp [hp]
        · left; exact List.mem_cons_of_mem _ hp
      · simp [insertAssoc, ha] at hp
        rcases hp with hp | hp
        · left; simp [hp]
        · rcases ih hp with h | h
          · left; exact List.mem_cons_of_mem _ h
          · right; exact h

/-- Keys of an updated association list: unchanged on overwrite, appended on
fresh insert. -/
theorem keys_insertAssoc {β : Type} (l : List (String × β)) (k : String) (v : β) :
    (insertAssoc l k v).map Prod.fst
      = if k ∈ l.map Prod.fst then l.map Prod.fst else l.map Prod.fst ++ [k] := by
  induction l with
  | nil => simp [insertAssoc]
  | cons q t ih =>
      obtain ⟨a, b⟩ := q
      by_cases ha : a = k
      · simp [insertAssoc, ha]
      · have hne : ¬ k = a := fun hk => ha hk.symm
        by_cases hm : k ∈ t.map Prod.fst <;> simp [insertAssoc, ha, hne, hm, ih]

/-- Inserting a fresh key appends the pair at the end. -/
theorem insertAssoc_of_not_mem {β : Type} {l : List (String × β)} {k : String}
    (h : k ∉ l.map Prod.fst) (v : β) : insertAssoc l k v = l ++ [(k, v)] := by
  induction l with
  | nil => simp [insertAssoc]
  | cons q t ih =>
      obtain ⟨a, b⟩ := q
      have ha : ¬ a = k := by
        intro hk
        exact h (by simp [hk])
      have ht : k ∉ t.map Prod.fst := by
        intro hk
        exact h (by simp [hk])
      simp [insertAssoc, ha, ih ht]

/-- Lookup finds a member of the association list. -/
theorem lookup_mem {β : Type} {l : List (String × β)} {k : String} {v : β}
    (h : List.lookup k l = some v) : (k, v) ∈ l := by
  induction l with
  | nil => simp [List.lookup] at h
  | cons q t ih =>
      obtain ⟨a, b⟩ := q
      by_cases hk : k = a
      · subst hk
        rw [lookup_cons_self] at h
        cases h
        exact List.mem_cons_self _ _
      · rw [lookup_cons_ne hk] at h
        exact List.mem_cons_of_mem _ (ih h)

/-- Length of a `slice(-n)` suffix. -/
theorem lastN_length {α : Type} (n : Nat) (l : List α) :
    (lastN n l).length = l.length - (l.length - n) := by
  simp [lastN]

/-- A list already within the bound is its own `slice(-n)`. -/
theorem lastN_of_le {α : Type} {n : Nat} {l : List α} (h : l.length ≤ n) :
    lastN n l = l := by
  simp [lastN, Nat.sub_eq_zero_of_le h]

/-- Taking the suffix before appending more elements loses nothing beyond
what the final suffix drops anyway. -/
theorem lastN_append_lastN {α : Type} (n : Nat) (l ws : List α) :
    lastN n (lastN n l ++ ws) = lastN n (l ++ ws) := by
  simp only [lastN, List.length_append, List.length_drop]
  rw [List.drop_append_eq_append_drop, List.drop_append_eq_append_drop, List.drop_drop]
  simp only [List.length_drop]
  have h1 : l.length - n + (l.length - (l.length - n) + ws.length - n)
      = l.length + ws.length - n := by omega
  have h2 : l.length - (l.length - n) + ws.length - n - (l.length - (l.length - n))
      = l.length + ws.length - n - l.length := by omega
  rw [h1, h2]

/-- Folding bounded appends equals one bounded append of everything, as long
as the start respects the bound. -/
theorem foldl_lastN_append {α : Type} (n : Nat) :
    ∀ (ws : List α) (init : List α), init.length ≤ n →
      ws.foldl (fun l w => lastN n (l ++ [w])) init = lastN n (init ++ ws)
  | [], init, h => by simp [lastN_of_le h]
  | w :: ws, init, h => by
      have hlen : (lastN n (init ++ [w])).length ≤ n := by
        rw [lastN_length]; omega
      rw [List.foldl_cons, foldl_lastN_append n ws _ hlen, lastN_append_lastN]
      simp

/-! Claim C5: the `appendStatus` retention bound. -/

/-- Replacing a field by itself is the identity (structure eta). -/
theorem chatSession_eta_statusHistory (s : ChatSession) :
    ({ s with statusHistory := s.statusHistory } : ChatSession) = s := rfl

/-- Characterization of a sequence of `appendStatus` calls: each matching
session folds the bounded append over its log, other sessions and the
active pointer are untouched. -/
theorem appendStatus_foldl_sessions (sid : String) :
    ∀ (ws : List String) (st : StoreState),
      (ws.foldl (fun acc w => appendStatus sid w acc) st).sessions
        = st.sessions.map (fun s =>
            if s.id = sid
            then { s with statusHistory :=
                    ws.foldl (fun l w => lastN 50 (l ++ [JValue.str w])) s.statusHistory }
            else s)
  | [], st => by
      simp [chatSession_eta_statusHistory]
  | w :: ws, st => by
      rw [List.foldl_cons, appendStatus_foldl_sessions sid ws]
      show (st.sessions.map _).map _ = _
      rw [List.map_map]
      refine List.map_congr_left (fun s hs => ?_)
      by_cases h : s.id = sid
      · simp [h, List.foldl_cons]
      · simp [h]

/-- Claim C5: for every session and every sequence of `appendStatus` calls on
it, starting from a log of at most 50 entries, the stored log is exactly the
last-50 suffix of the original log followed by the appended statuses in
order (so the oldest entries are dropped first), and its length never
exceeds 50. -/
theorem appendStatus_c5 (st : StoreState) (sid : String) (ws : List String)
    (h : ∀ s ∈ st.sessions, s.id = sid → s.statusHistory.length ≤ 50) :
    (ws.foldl (fun acc w => appendStatus sid w acc) st).sessions
      = st.sessions.map (fun s =>
          if s.id = sid
          then { s with statusHistory := lastN 50 (s.statusHistory ++ ws.map JValue.str) }
          else s)
    ∧ ∀ s' ∈ (ws.foldl (fun acc w => appendStatus sid w acc) st).sessions,
        s'.id = sid → s'.statusHistory.length ≤ 50 := by
  have hchar := appendStatus_foldl_sessions sid ws st
  have hmain : (ws.foldl (fun acc w => appendStatus sid w acc) st).sessions
      = st.sessions.map (fun s =>
          if s.id = sid
          then { s with statusHistory := lastN 50 (s.statusHistory ++ ws.map JValue.str) }
          else s) := by
    rw [hchar]
    refine List.map_congr_left (fun s hs => ?_)
    by_cases hid : s.id = sid
    · have : ws.foldl (fun l w => lastN 50 (l ++ [JValue.str w])) s.statusHistory
          = lastN 50 (s.statusHistory ++ ws.map JValue.str) := by
        have := foldl_lastN_append 50 (ws.map JValue.str) s.statusHistory (h s hs hid)
        rw [← this, List.foldl_map]
      simp [hid, this]
    · simp [hid]
  refine ⟨hmain, ?_⟩
  intro s' hs' hid
  rw [hmain] at hs'
  rcases List.mem_map.mp hs' with ⟨s, hs, hmap⟩
  by_cases h0 : s.id = sid
  · rw [if_pos h0] at hmap
    rw [← hmap]
    show (lastN 50 (s.statusHistory ++ ws.map JValue.str)).length ≤ 50
    rw [lastN_length]; omega
  · rw [if_neg h0] at hmap
    rw [← hmap] at hid
    exact absurd hid h0

/-- Concrete test fixture: a freshly created session with the given id,
creation timestamp, job map and status log. -/
def fixtureSession (id : String) (createdAt : Int) (jobs : List (String × SessionJob))
    (statusHistory : List JValue) : ChatSession :=
  { id := id, prompt := "", tool := .str "video", model := "aws-nova-reel",
    createdAt := createdAt, videoUrl := none, statusHistory := statusHistory,
    attachments := [], messages := [], jobId := none, jobs := jobs, pinned := false }

/-- Concrete test fixture: a store holding one session, which is active. -/
def fixtureStore (s : ChatSession) : StoreState :=
  { sessions := [s], activeSessionId := some s.id }

/-- Witness for C5 at a concrete store: a session holding 49 entries receives
three more appended statuses; the log keeps the 50-entry bound. -/
theorem appendStatus_c5_witness :
    (∀ s ∈ (fixtureStore (fixtureSession "s" 0 []
        ((List.range 49).map (fun i => JValue.num (Int.ofNat i))))).sessions,
      s.id = "s" → s.statusHistory.length ≤ 50) ∧
    ∀ s' ∈ ((["a", "b", "c"].foldl (fun acc w => appendStatus "s" w acc)
        (fixtureStore (fixtureSession "s" 0 []
          ((List.range 49).map (fun i => JValue.num (Int.ofNat i))))))).sessions,
      s'.id = "s" → s'.statusHistory.length ≤ 50 := by
  refine ⟨?_, ?_⟩
  · intro s hs hid
    simp [fixtureStore, fixtureSession] at hs
    rw [hs]
    simp [fixtureSession]
  · refine (appendStatus_c5 _ "s" ["a", "b", "c"] ?_).2
    intro s hs hid
    simp [fixtureStore, fixtureSession] at hs
    rw [hs]
    simp [fixtureSession]

/-! Claim C9: `deleteSession` removes exactly the matching session and
conditionally clears the active pointer. -/

/-- Claim C9: deleting a session removes exactly the sessions carrying that
identifier (all remaining ones are the untouched originals, in order), the
pointer is cleared exactly when it referenced that identifier, and is
otherwise unchanged. -/
theorem deleteSession_c9 (st : StoreState) (id : String) :
    (∀ s' ∈ (deleteSession id st).sessions, s'.id ≠ id) ∧
    (deleteSession id st).sessions.Sublist st.sessions ∧
    (∀ s ∈ st.sessions, s.id ≠ id → s ∈ (deleteSession id st).sessions) ∧
    (st.activeSessionId = some id → (deleteSession id st).activeSessionId = none) ∧
    (st.activeSessionId ≠ some id →
      (deleteSession id st).activeSessionId = st.activeSessionId) := by
  refine ⟨?_, ?_, ?_, ?_, ?_⟩
  · intro s' hs'
    have := List.of_mem_filter hs'
    simpa using this
  · exact List.filter_sublist _
  · intro s hs hne
    exact List.mem_filter.mpr ⟨hs, by simpa using hne⟩
  · intro h
    simp [deleteSession, h]
  · intro h
    simp [deleteSession, h]

/-- Concrete test fixture: a two-session store with the first session
active. -/
def fixtureStore2 : StoreState :=
  { sessions := [fixtureSession "a" 0 [] [], fixtureSession "b" 1 [] []]
    activeSessionId := some "a" }

/-- Witness for C9 at a concrete two-session store whose active pointer
references the deleted session. -/
theorem deleteSession_c9_witness :
    (∀ s' ∈ (deleteSession "a" fixtureStore2).sessions, s'.id ≠ "a") ∧
    (deleteSession "a" fixtureStore2).activeSessionId = none := by
  constructor
  · exact (deleteSession_c9 fixtureStore2 "a").1
  · exact (deleteSession_c9 fixtureStore2 "a").2.2.2.1 rfl

/-! Claim C3: give-up behavior after consecutive polling failures. -/

/-- A transport failure below the retry budget: the counter advances, no
callback fires, polling continues. -/
theorem pollStep_err_low (sid jid tS : String) (n : Int) (m : String)
    (ps : PollerState) (st : StoreState) (h : ps.failureCount + 1 ≤ 10) :
    pollStep sid jid tS n (.err m) ps st
      = ({ ps with failureCount := ps.failureCount + 1 },
         appendJobStatus sid jid "RETRYING" (some m) n
           (appendStatus sid (tS ++ " • RETRYING — " ++ m) st), []) := by
  simp only [pollStep]
  rw [if_neg (by omega)]

/-- The transport failure that exhausts the retry budget: the error callback
fires with the generic connectivity message and polling stops. -/
theorem pollStep_err_giveup (sid jid tS : String) (n : Int) (m : String)
    (ps : PollerState) (st : StoreState) (h : ps.failureCount + 1 > 10) :
    pollStep sid jid tS n (.err m) ps st
      = ({ ps with failureCount := ps.failureCount + 1, isPolling := false },
         appendJobStatus sid jid "RETRYING" (some m) n
           (appendStatus sid (tS ++ " • RETRYING — " ++ m) st),
         [.failure "Connection lost. Please try again." jid]) := by
  simp only [pollStep]
  rw [if_pos h]

/-- Concatenated tick lists run sequentially. -/
theorem pollRun_append (sid jid : String) :
    ∀ (a b : List PollTick) (acc : RunAcc),
      pollRun sid jid (a ++ b) acc = pollRun sid jid b (pollRun sid jid a acc)
  | [], b, acc => rfl
  | t :: a, b, acc => by
      by_cases h : acc.ps.isPolling
      · simp only [List.cons_append, pollRun, h, if_true]
        exact pollRun_append sid jid a b _
      · simp only [List.cons_append, pollRun, h, if_false]
        exact pollRun_append sid jid a b acc

/-- Once polling has stopped, no tick does anything: no query is issued. -/
theorem pollRun_stopped (sid jid : String) :
    ∀ (ticks : List PollTick) (acc : RunAcc), acc.ps.isPolling = false →
      pollRun sid jid ticks acc = acc
  | [], acc, h => rfl
  | t :: ticks, acc, h => by
      simp only [pollRun, h, if_false]
      exact pollRun_stopped sid jid ticks acc h

/-- A run of transport failures below the retry budget: polling stays live,
the counter accumulates, no callback fires, one query per tick. -/
theorem pollRun_err_low (sid jid : String) :
    ∀ (ticks : List PollTick) (acc : RunAcc),
      (∀ t ∈ ticks, ∃ m, t.result = .err m) → acc.ps.isPolling = true →
      acc.ps.failureCount + ticks.length ≤ 10 →
      (pollRun sid jid ticks acc).ps.isPolling = true ∧
      (pollRun sid jid ticks acc).ps.failureCount = acc.ps.failureCount + ticks.length ∧
      (pollRun sid jid ticks acc).events = acc.events ∧
      (pollRun sid jid ticks acc).queries = acc.queries + ticks.length
  | [], acc, herr, hlive, hb => by simp [pollRun, hlive]
  | t :: ticks, acc, herr, hlive, hb => by
      obtain ⟨m, hm⟩ := herr t (List.mem_cons_self _ _)
      have hlow : acc.ps.failureCount + 1 ≤ 10 := by
        simp at hb
        omega
      rw [pollRun, if_pos hlive, hm,
        pollStep_err_low sid jid t.timeStr t.now m acc.ps acc.st hlow]
      have ih := pollRun_err_low sid jid ticks
        { ps := { acc.ps with failureCount := acc.ps.failureCount + 1 },
          st := appendJobStatus sid jid "RETRYING" (some m) t.now
            (appendStatus sid (t.timeStr ++ " • RETRYING — " ++ m) acc.st),
          events := acc.events ++ [], queries := acc.queries + 1 }
        (fun t2 ht2 => herr t2 (List.mem_cons_of_mem _ ht2)) hlive
        (by simp at hb ⊢; omega)
      refine ⟨ih.1, ?_, ?_, ?_⟩
      · rw [ih.2.1]
        simp [List.length_cons]
        omega
      · rw [ih.2.2.1]
        simp
      · rw [ih.2.2.2]
        simp [List.length_cons]
        omega

/-- Claim C3: starting from a zero failure counter, eleven consecutive
transport failures make the poller invoke the error callback exactly once
(after the eleventh failure) with the generic connectivity message; polling
stops there and no further status query is issued, whatever ticks follow.
A successful query always resets the consecutive-failure counter to zero. -/
theorem pollStatus_c3 (sid jid : String) (ticks extra : List PollTick) (st : StoreState)
    (hlen : ticks.length = 11) (herr : ∀ t ∈ ticks, ∃ m, t.result = .err m) :
    (pollRun sid jid (ticks ++ extra)
        { ps := initialPollerState, st := st, events := [], queries := 0 }).events
      = [PollEvent.failure "Connection lost. Please try again." jid] ∧
    (pollRun sid jid (ticks ++ extra)
        { ps := initialPollerState, st := st, events := [], queries := 0 }).queries = 11 ∧
    (pollRun sid jid (ticks ++ extra)
        { ps := initialPollerState, st := st, events := [], queries := 0 }).ps.isPolling
      = false ∧
    (∀ (ps : PollerState) (st2 : StoreState) (data : JobStatus) (tS : String) (n : Int),
      ((pollStep sid jid tS n (.ok data) ps st2).1).failureCount = 0) := by
  have hsplit : ticks = ticks.take 10 ++ ticks.drop 10 := (List.take_append_drop 10 ticks).symm
  have hlen10 : (ticks.take 10).length = 10 := by
    rw [List.length_take]
    omega
  have hlen1 : (ticks.drop 10).length = 1 := by
    rw [List.length_drop]
    omega
  obtain ⟨t11, ht11⟩ : ∃ t, ticks.drop 10 = [t] := by
    match h : ticks.drop 10 with
    | [] => rw [h] at hlen1; simp at hlen1
    | [t] => exact ⟨t, rfl⟩
    | t :: t2 :: r => rw [h] at hlen1; simp at hlen1
  set acc0 : RunAcc := { ps := initialPollerState, st := st, events := [], queries := 0 }
  have hrun10 := pollRun_err_low sid jid (ticks.take 10) acc0
    (fun t ht => herr t (by rw [hsplit]; exact List.mem_append_left _ ht))
    rfl (by rw [hlen10]; simp [acc0, initialPollerState])
  rw [hlen10] at hrun10
  set acc10 := pollRun sid jid (ticks.take 10) acc0 with hacc10
  have hm11 : ∃ m, t11.result = .err m := by
    apply herr
    rw [hsplit, ht11]
    exact List.mem_append_right _ (List.mem_cons_self _ _)
  obtain ⟨m11, hm11⟩ := hm11
  have hfc : acc10.ps.failureCount = 10 := by
    have := hrun10.2.1
    simpa [acc0, initialPollerState] using this
  have hstep11 := pollStep_err_giveup sid jid t11.timeStr t11.now m11 acc10.ps acc10.st
    (by omega)
  have hfinal : pollRun sid jid (ticks ++ extra) acc0
      = { ps := { acc10.ps with failureCount := acc10.ps.failureCount + 1, isPolling := false },
          st := appendJobStatus sid jid "RETRYING" (some m11) t11.now
            (appendStatus sid (t11.timeStr ++ " • RETRYING — " ++ m11) acc10.st),
          events := acc10.events ++ [.failure "Connection lost. Please try again." jid],
          queries := acc10.queries + 1 } := by
    conv_lhs => rw [hsplit]
    rw [List.append_assoc, pollRun_append, ← hacc10, ht11, List.singleton_append,
      pollRun, if_pos hrun10.1, hm11, hstep11]
    exact pollRun_stopped sid jid extra _ rfl
  rw [hfinal]
  refine ⟨?_, ?_, rfl, ?_⟩
  · show acc10.events ++ _ = _
    rw [hrun10.2.2.1, show acc0.events = [] from rfl, List.nil_append]
  · show acc10.queries + 1 = 11
    rw [hrun10.2.2.2, show acc0.queries = 0 from rfl]
  · intro ps st2 data tS n
    by_cases hC : data.status = "COMPLETED" <;>
      by_cases hF : data.status = "FAILED" <;>
        by_cases hd : (data.status ++ "-" ++ data.progress) = ps.lastStatusRef <;>
          simp [pollStep, hC, hF, hd] <;> split <;> rfl

/-- Concrete test fixture: a registered job in its initial state. -/
def fixtureJob (id : String) : SessionJob :=
  { id := id, tool := .str "video", model := "aws-nova-reel", createdAt := 0,
    status := "QUEUED", progress := none, history := [], videoUrl := none,
    imageUrls := none }

/-- Witness for C3: eleven concrete network failures against a concrete
store produce one connectivity-error callback and eleven queries. -/
theorem pollStatus_c3_witness :
    (pollRun "s" "j"
        (List.replicate 11 ({ timeStr := "T", now := 0, result := .err "boom" } : PollTick) ++ [])
        { ps := initialPollerState, st := fixtureStore2, events := [], queries := 0 }).events
      = [PollEvent.failure "Connection lost. Please try again." "j"] ∧
    (pollRun "s" "j"
        (List.replicate 11 ({ timeStr := "T", now := 0, result := .err "boom" } : PollTick) ++ [])
        { ps := initialPollerState, st := fixtureStore2, events := [], queries := 0 }).queries
      = 11 := by
  have h := pollStatus_c3 "s" "j"
    (List.replicate 11 ({ timeStr := "T", now := 0, result := .err "boom" } : PollTick)) []
    fixtureStore2 (by simp)
    (fun t ht => ⟨"boom", by rw [List.eq_of_mem_replicate ht]⟩)
  exact ⟨h.1, h.2.1⟩

/-! Claim C6: `duplicateSession` clones with a fresh identity and an
independent job map. -/

/-- A session-wise map that preserves identifiers commutes with lookup of a
session by identifier. -/
theorem find?_id_map (g : ChatSession → ChatSession) (hg : ∀ s, (g s).id = s.id)
    (target : String) :
    ∀ (l : List ChatSession),
      (l.map g).find? (fun s => s.id == target)
        = (l.find? (fun s => s.id == target)).map g
  | [] => rfl
  | a :: l => by
      by_cases h : a.id = target
      · rw [List.map_cons,
          List.find?_cons_of_pos _ (by simp [hg, h]),
          List.find?_cons_of_pos _ (by simp [h])]
        rfl
      · rw [List.map_cons,
          List.find?_cons_of_neg _ (by simp [hg, h]),
          List.find?_cons_of_neg _ (by simp [h]),
          find?_id_map g hg target l]

/-- The clone record that `duplicateSession` builds from its source. -/
def cloneOf (src : ChatSession) (fresh : String) (now : Int) : ChatSession :=
  { src with
    id := fresh
    createdAt := now
    prompt := src.prompt ++ " (copy)"
    messages := src.messages
    jobs := src.jobs
    pinned := false }

/-- Claim C6: duplicating an existing session prepends a clone carrying a new
identifier, a fresh creation timestamp, the prompt with the copy marker, the
source's messages and jobs, and an unpinned flag; the clone becomes active;
and mutating the clone's job map (registering or patching a job under the
clone's identifier) leaves the source session untouched. -/
theorem duplicateSession_c6 (st : StoreState) (fresh : String) (now : Int) (id : String)
    (src : ChatSession) (hfind : st.sessions.find? (fun s => s.id == id) = some src)
    (hfresh : ¬ fresh = id) :
    (duplicateSession fresh now id st).sessions = cloneOf src fresh now :: st.sessions ∧
    ¬ fresh = src.id ∧
    (duplicateSession fresh now id st).activeSessionId = some fresh ∧
    (∀ (j : SessionJob),
      (registerJob fresh j (duplicateSession fresh now id st)).sessions.find?
        (fun s => s.id == id) = some src) ∧
    (∀ (jid : String) (p : SessionJobPatch),
      (updateJob fresh jid p (duplicateSession fresh now id st)).sessions.find?
        (fun s => s.id == id) = some src) := by
  have hsrc : src.id = id := by
    have := List.find?_some hfind
    simpa using this
  have hdup : duplicateSession fresh now id st
      = { sessions := cloneOf src fresh now :: st.sessions
          activeSessionId := some fresh } := by
    simp only [duplicateSession, hfind, cloneOf]
  have hfind2 : (duplicateSession fresh now id st).sessions.find? (fun s => s.id == id)
      = some src := by
    rw [hdup]
    show List.find? _ (_ :: _) = _
    rw [List.find?_cons_of_neg _ (by simp [cloneOf, hfresh]), hfind]
  refine ⟨by rw [hdup], fun h => hfresh (h.trans hsrc), by rw [hdup], ?_, ?_⟩
  · intro j
    rw [registerJob]
    show (List.map _ _).find? _ = _
    rw [find?_id_map _ (fun s => by by_cases hs : s.id = fresh <;> simp [hs]) id _, hfind2]
    show some (if src.id = fresh then _ else src) = some src
    rw [if_neg (fun h => hfresh (hsrc ▸ h).symm)]
  · intro jid p
    rw [updateJob]
    show (List.map _ _).find? _ = _
    rw [find?_id_map _
      (fun s => by
        by_cases hs : s.id = fresh
        · cases hl : s.jobs.lookup jid <;> simp [hs, hl]
        · simp [hs]) id _, hfind2]
    show some (if src.id = fresh then _ else src) = some src
    rw [if_neg (fun h => hfresh (hsrc ▸ h).symm)]

/-- Witness for C6 at a concrete two-session store: duplicating session `a`
as `c` activates the clone and registering a job under `c` leaves `a`
unchanged. -/
theorem duplicateSession_c6_witness :
    (duplicateSession "c" 5 "a" fixtureStore2).activeSessionId = some "c" ∧
    (registerJob "c" (fixtureJob "j") (duplicateSession "c" 5 "a" fixtureStore2)).sessions.find?
      (fun s => s.id == "a") = some (fixtureSession "a" 0 [] []) := by
  have h := duplicateSession_c6 fixtureStore2 "c" 5 "a" (fixtureSession "a" 0 [] [])
    (by rw [fixtureStore2]; rfl) (by decide)
  exact ⟨h.2.2.1, h.2.2.2.1 (fixtureJob "j")⟩

/-! Claim C7: the submission helper's endpoint resolution and response
handling. -/

/-- Claim C7: when the (tool, model) pair is missing from the static lookup
table, `submitToolRequest` fails with the configuration message and issues
no network request; with a resolved endpoint it issues exactly one request
and, on a non-success response, fails with the body's `detail` field when
present and the generic message otherwise; on success it returns the
endpoint and raw body, with the job identifier read from the body's
`job_id` field and absent when the body has none. -/
theorem submitToolRequest_c7 (tool : ToolType) (model : String) (response : HttpResponse) :
    ((MODEL_CONFIG tool).lookup model = none →
      submitToolRequest tool model response
        = (.error ("Model \"" ++ model ++ "\" is not configured for " ++ tool.name ++ "."),
           0)) ∧
    (∀ ep, (MODEL_CONFIG tool).lookup model = some ep →
      (response.ok = false →
        ((response.body.hasKey "detail" = true →
          submitToolRequest tool model response
            = (.error (jsToString ((response.body.get "detail").getD .null)), 1)) ∧
         (response.body.hasKey "detail" = false →
          submitToolRequest tool model response = (.error "Request failed", 1)))) ∧
      (response.ok = true →
        ((response.body.hasKey "job_id" = true →
          submitToolRequest tool model response
            = (.ok { jobId := some (jsToString ((response.body.get "job_id").getD .null)),
                     data := response.body, endpoint := ep }, 1)) ∧
         (response.body.hasKey "job_id" = false →
          submitToolRequest tool model response
            = (.ok { jobId := none, data := response.body, endpoint := ep }, 1))))) := by
  refine ⟨?_, ?_⟩
  · intro h
    simp [submitToolRequest, h]
  · intro ep hep
    refine ⟨?_, ?_⟩
    · intro hok
      refine ⟨?_, ?_⟩ <;> intro hd <;> simp [submitToolRequest, hep, hok, hd]
    · intro hok
      refine ⟨?_, ?_⟩ <;> intro hd <;> simp [submitToolRequest, hep, hok, hd]

/-- Witness for C7: an unknown video model is rejected with zero requests; a
failing response surfaces the body's `detail` text; a success carries the
remote `job_id`. -/
theorem submitToolRequest_c7_witness :
    submitToolRequest .video "nope" { ok := true, body := .null }
      = (.error "Model \"nope\" is not configured for video.", 0) ∧
    submitToolRequest .image "Lykon/DreamShaper"
        { ok := false, body := .obj [("detail", .str "boom")] }
      = (.error "boom", 1) ∧
    submitToolRequest .video "aws-nova-reel"
        { ok := true, body := .obj [("job_id", .str "J1")] }
      = (.ok { jobId := some "J1", data := .obj [("job_id", .str "J1")],
               endpoint := "/api/video/nova" }, 1) := by
  refine ⟨?_, ?_, ?_⟩
  · exact (submitToolRequest_c7 .video "nope" { ok := true, body := .null }).1 rfl
  · have h := (((submitToolRequest_c7 .image "Lykon/DreamShaper"
      { ok := false, body := .obj [("detail", .str "boom")] }).2
        "/api/image/Lykon/DreamShaper" rfl).1 rfl).1 rfl
    rw [h]
    rfl
  · have h := (((submitToolRequest_c7 .video "aws-nova-reel"
      { ok := true, body := .obj [("job_id", .str "J1")] }).2
        "/api/video/nova" rfl).2 rfl).1 rfl
    rw [h]
    rfl


/-! Claim C1: `appendJobStatus` deduplication. The store operation appends
unconditionally; the value-based dedup in the poller guards only the
session's human-readable status log. -/

/-- The job record after one `appendJobStatus` pass: status and progress
overwritten, the fresh entry appended to the history. -/
def jobWithHistory (job : SessionJob) (stat : String) (p : Option String)
    (es : List JobStatusEntry) : SessionJob :=
  { job with
    status := stat
    progress := p
    history := job.history ++ es }

/-- The status payload of a repeated intermediate poll used below. -/
def samplePoll : JobStatus :=
  { status := "GENERATING_PROMPTS", progress := "x", video_url := none, image_urls := none }

/-- The store of the C1 counterexample scenario. -/
def c1Store : StoreState :=
  fixtureStore (fixtureSession "s" 0 [("j", fixtureJob "j")] [])

/-- Counterexample to C1: calling `appendJobStatus` twice with the identical
(status, progress) pair after a first recorded entry does create two
back-to-back equal history entries; and two successful polls reporting the
identical pair also append two equal `StatusEntry` records to the job's
history (while the session's string log, the actual target of the dedup,
grows only once across both polls). -/
theorem appendJobStatus_c1_counterexample :
    ((appendJobStatus "s" "j" "QUEUED" (some "p") 2
        (appendJobStatus "s" "j" "QUEUED" (some "p") 1
          (fixtureStore (fixtureSession "s" 0
            [("j", jobWithHistory (fixtureJob "j") "INIT" (some "p0")
              [{ status := "INIT", progress := some "p0", timestamp := 0 }])]
            [])))).sessions.head?).map
        (fun s => (s.jobs.lookup "j").map (fun j => j.history.map
          (fun e => (e.status, e.progress))))
      = some (some [("INIT", some "p0"), ("QUEUED", some "p"), ("QUEUED", some "p")]) ∧
    ((pollStep "s" "j" "T2" 2 (.ok samplePoll)
        (pollStep "s" "j" "T1" 1 (.ok samplePoll) initialPollerState c1Store).1
        (pollStep "s" "j" "T1" 1 (.ok samplePoll) initialPollerState c1Store).2.1
      ).2.1.sessions.head?).map
        (fun s => ((s.jobs.lookup "j").map (fun j => j.history.map
            (fun e => (e.status, e.progress))), s.statusHistory.length))
      = some (some [("GENERATING_PROMPTS", some "x"), ("GENERATING_PROMPTS", some "x")], 1) := by
  constructor
  · rfl
  · rfl

/-- Amended C1: `appendJobStatus` appends a history entry unconditionally —
two calls with the identical (status, progress) pair create two equal
back-to-back entries — and the poller's value-based dedup governs only the
session's human-readable status log: on a successful poll whose status key
equals the last observed key the string log is left unchanged while the job
history still grows, and on a differing key the string log grows by the
formatted line. -/
theorem appendJobStatus_c1_amended :
    (∀ (st : StoreState) (sid jid stat : String) (p : Option String) (t1 t2 : Int)
       (i : Nat) (s : ChatSession) (job : SessionJob),
      st.sessions[i]? = some s → s.id = sid → s.jobs.lookup jid = some job →
      (appendJobStatus sid jid stat p t2
          (appendJobStatus sid jid stat p t1 st)).sessions[i]?
        = some { s with jobs := (insertAssoc s.jobs jid (jobWithHistory job stat p
            [{ status := stat, progress := p, timestamp := t1 },
             { status := stat, progress := p, timestamp := t2 }])) }) ∧
    (∀ (sid jid tS : String) (n : Int) (data : JobStatus) (ps : PollerState)
       (st : StoreState) (i : Nat) (s : ChatSession) (job : SessionJob),
      st.sessions[i]? = some s → s.id = sid → s.jobs.lookup jid = some job →
      ¬ data.status = "COMPLETED" → ¬ data.status = "FAILED" →
      (data.status ++ "-" ++ data.progress = ps.lastStatusRef →
        (pollStep sid jid tS n (.ok data) ps st).2.1.sessions[i]?
          = some { s with jobs := (insertAssoc s.jobs jid
              (jobWithHistory job data.status (some data.progress)
                [{ status := data.status, progress := some data.progress,
                   timestamp := n }])) }) ∧
      (¬ data.status ++ "-" ++ data.progress = ps.lastStatusRef →
        (pollStep sid jid tS n (.ok data) ps st).2.1.sessions[i]?
          = some { s with
              statusHistory := lastN 50 (s.statusHistory
                ++ [.str (tS ++ " • " ++ data.status.replace "_" " " ++ " — "
                      ++ jsOr data.progress "")])
              jobs := (insertAssoc s.jobs jid
                (jobWithHistory job data.status (some data.progress)
                  [{ status := data.status, progress := some data.progress,
                     timestamp := n }])) })) := by
  constructor
  · intro st sid jid stat p t1 t2 i s job hs hid hjob
    simp only [appendJobStatus, List.map_map, List.getElem?_map, hs, Option.map_some']
    simp only [Function.comp_apply, if_pos hid, hjob]
    simp [lookup_insertAssoc_self, insertAssoc_insertAssoc, jobWithHistory]
  · intro sid jid tS n data ps st i s job hs hid hjob hC hF
    constructor
    · intro hd
      simp only [pollStep, if_pos hd, if_neg hC, if_neg hF]
      simp only [updateJob, appendJobStatus, List.map_map, List.getElem?_map, hs,
        Option.map_some', Function.comp_apply, if_pos hid, hjob]
      simp [lookup_insertAssoc_self, insertAssoc_insertAssoc, applyJobPatch,
        emptyJobPatch, jobWithHistory]
    · intro hd
      simp only [pollStep, if_neg hd, if_neg hC, if_neg hF]
      simp only [appendStatus, updateJob, appendJobStatus, List.map_map,
        List.getElem?_map, hs, Option.map_some', Function.comp_apply, if_pos hid, hjob]
      simp [lookup_insertAssoc_self, insertAssoc_insertAssoc, applyJobPatch,
        emptyJobPatch, jobWithHistory, hid]

/-- Witness for the amended C1 at a concrete store: the double call yields
the two equal back-to-back entries. -/
theorem appendJobStatus_c1_amended_witness :
    (appendJobStatus "s" "j" "QUEUED" (some "p") 2
        (appendJobStatus "s" "j" "QUEUED" (some "p") 1 c1Store)).sessions[0]?
      = some { fixtureSession "s" 0 [("j", fixtureJob "j")] [] with
          jobs := (insertAssoc [("j", fixtureJob "j")] "j"
            (jobWithHistory (fixtureJob "j") "QUEUED" (some "p")
              [{ status := "QUEUED", progress := some "p", timestamp := 1 },
               { status := "QUEUED", progress := some "p", timestamp := 2 }])) } := by
  have h := appendJobStatus_c1_amended.1 c1Store
    "s" "j" "QUEUED" (some "p") 1 2 0
    (fixtureSession "s" 0 [("j", fixtureJob "j")] []) (fixtureJob "j")
    rfl rfl rfl
  exact h

/-! Claim C8: the key-equals-identifier invariant of the per-session job
map. The raw store API can break it (`updateJob` payloads may carry an
`id`, and `createSession` accepts arbitrary job maps); it holds for every
operation as the repository actually invokes it. -/

/-- Every key of a job map equals the identifier of the job stored under
it. -/
def JobsWF (jobs : List (String × SessionJob)) : Prop :=
  ∀ p ∈ jobs, p.1 = p.2.id

/-- The job-map invariant, across all sessions of the store. -/
def StoreJobsWF (st : StoreState) : Prop :=
  ∀ s ∈ st.sessions, JobsWF s.jobs

/-- Counterexample to C8: from the empty store, `createSession` followed by
`registerJob` and an `updateJob` whose payload carries an `id` yields a
reachable session whose job map stores, under key `a`, a job whose own
identifier is `b`; likewise `createSession` accepts a session whose job map
already violates the invariant. -/
theorem jobs_key_c8_counterexample :
    ((updateJob "s" "a" { emptyJobPatch with id := some "b" }
        (registerJob "s" (fixtureJob "a")
          (createSession (fixtureSession "s" 0 [] [])
            { sessions := [], activeSessionId := none }))).sessions.head?).map
      (fun s => s.jobs.map (fun p => (p.1, p.2.id)))
      = some [("a", "b")] ∧
    ((createSession (fixtureSession "s" 0 [("x", fixtureJob "y")] [])
        { sessions := [], activeSessionId := none }).sessions.head?).map
      (fun s => s.jobs.map (fun p => (p.1, p.2.id)))
      = some [("x", "y")] ∧
    ¬ ("a" = "b") ∧ ¬ ("x" = "y") := by
  refine ⟨rfl, rfl, by decide, by decide⟩

/-- Inserting a job under its own identifier preserves the invariant. -/
theorem jobsWF_insertAssoc {l : List (String × SessionJob)} {k : String}
    {v : SessionJob} (hl : JobsWF l) (hk : k = v.id) : JobsWF (insertAssoc l k v) := by
  intro p hp
  rcases mem_insertAssoc hp with h | h
  · exact hl p h
  · rw [h]
    exact hk

/-- One `normalizeJobs` reduce step preserves the invariant. -/
theorem normalizeJobsStep_wf (now : Int) (acc : List (String × SessionJob))
    (p : JValue × JValue) (h : JobsWF acc) : JobsWF (normalizeJobsStep now acc p) := by
  cases hp : p.2 <;> simp only [normalizeJobsStep, hp] <;>
    first
      | exact h
      | exact jobsWF_insertAssoc h rfl

/-- Claim C8 (amended): `normalizeJobs` always produces job maps whose keys
equal the contained job's identifier; `registerJob` and `appendJobStatus`
preserve the invariant, as does `updateJob` for payloads that leave the
`id` field unset and `createSession` for incoming sessions that satisfy it
— which is how every call site in the repository uses them. -/
theorem jobs_key_c8_amended :
    (∀ (now : Int) (v : Option JValue), JobsWF (normalizeJobs now v)) ∧
    (∀ (fresh : String) (now : Int) (x : JValue),
      JobsWF (normalizeSession fresh now x).jobs) ∧
    (∀ (st : StoreState) (sid : String) (job : SessionJob),
      StoreJobsWF st → StoreJobsWF (registerJob sid job st)) ∧
    (∀ (st : StoreState) (sid jid : String) (p : SessionJobPatch), p.id = none →
      StoreJobsWF st → StoreJobsWF (updateJob sid jid p st)) ∧
    (∀ (st : StoreState) (sid jid stat : String) (prog : Option String) (t : Int),
      StoreJobsWF st → StoreJobsWF (appendJobStatus sid jid stat prog t st)) ∧
    (∀ (st : StoreState) (session : ChatSession), JobsWF session.jobs →
      StoreJobsWF st → StoreJobsWF (createSession session st)) := by
  have hfold : ∀ (now : Int) (entries : List (JValue × JValue))
      (acc : List (String × SessionJob)), JobsWF acc →
      JobsWF (entries.foldl (normalizeJobsStep now) acc) := by
    intro now entries
    induction entries with
    | nil => intro acc h; exact h
    | cons e es ih =>
        intro acc h
        exact ih _ (normalizeJobsStep_wf now acc e h)
  have hnorm : ∀ (now : Int) (v : Option JValue), JobsWF (normalizeJobs now v) := by
    intro now v
    exact hfold now _ [] (by intro p hp; simp at hp)
  refine ⟨hnorm, ?_, ?_, ?_, ?_, ?_⟩
  · intro fresh now x
    exact hnorm now (x.get "jobs")
  · intro st sid job h s' hs'
    rcases List.mem_map.mp hs' with ⟨s, hs, rfl⟩
    by_cases hid : s.id = sid
    · simp only [if_pos hid]
      exact jobsWF_insertAssoc (h s hs) rfl
    · simp only [if_neg hid]
      exact h s hs
  · intro st sid jid p hp h s' hs'
    rcases List.mem_map.mp hs' with ⟨s, hs, rfl⟩
    by_cases hid : s.id = sid
    · simp only [if_pos hid]
      cases hl : s.jobs.lookup jid with
      | none => exact h s hs
      | some job =>
          have hkey : jid = job.id := h s hs (jid, job) (lookup_mem hl)
          refine jobsWF_insertAssoc (h s hs) ?_
          show jid = (applyJobPatch job p).id
          rw [applyJobPatch]
          show jid = p.id.getD job.id
          rw [hp]
          exact hkey
    · simp only [if_neg hid]
      exact h s hs
  · intro st sid jid stat prog t h s' hs'
    rcases List.mem_map.mp hs' with ⟨s, hs, rfl⟩
    by_cases hid : s.id = sid
    · simp only [if_pos hid]
      cases hl : s.jobs.lookup jid with
      | none => exact h s hs
      | some job =>
          have hkey : jid = job.id := h s hs (jid, job) (lookup_mem hl)
          exact jobsWF_insertAssoc (h s hs) hkey
    · simp only [if_neg hid]
      exact h s hs
  · intro st session hwf h s' hs'
    rw [createSession] at hs'
    cases hidx : st.sessions.findIdx? (fun item => item.id == session.id) with
    | none =>
        rw [hidx] at hs'
        rcases List.mem_cons.mp hs' with rfl | hmem
        · exact hwf
        · exact h s' hmem
    | some i =>
        rw [hidx] at hs'
        rcases List.mem_or_eq_of_mem_set hs' with hmem | rfl
        · exact h s' hmem
        · exact hwf

/-- Witness for the amended C8: a concrete create-register-append chain from
the empty store keeps the invariant. -/
theorem jobs_key_c8_amended_witness :
    StoreJobsWF (appendJobStatus "s" "j" "QUEUED" (some "p") 1
      (registerJob "s" (fixtureJob "j")
        (createSession (fixtureSession "s" 0 [] [])
          { sessions := [], activeSessionId := none }))) := by
  refine jobs_key_c8_amended.2.2.2.2.1 _ "s" "j" "QUEUED" (some "p") 1 ?_
  refine jobs_key_c8_amended.2.2.1 _ "s" (fixtureJob "j") ?_
  refine jobs_key_c8_amended.2.2.2.2.2 _ (fixtureSession "s" 0 [] []) ?_ ?_
  · intro p hp
    simp [fixtureSession] at hp
  · intro s hs
    simp at hs

/-! Claim C10: loading from storage returns the collection sorted by
creation timestamp, newest first, regardless of persisted order. -/

/-- Claim C10: the session list produced by `readStorage` is always sorted
by `createdAt` in descending order, and for a well-formed stored array (no
`null` records, which would make the load fail soft to an empty list) it is
exactly a permutation of the normalized records — so any in-memory order
produced by front-insertion survives a reload only when it agrees with the
creation-timestamp order. -/
theorem readStorage_c10 (fresh : String) (now : Int) (raw : JValue) :
    List.Pairwise (fun a b => b.createdAt ≤ a.createdAt) (readStorage fresh now raw) ∧
    (∀ items, raw = .arr items → (∀ v ∈ items, v ≠ JValue.null) →
      (readStorage fresh now raw).Perm (items.map (normalizeSession fresh now))) := by
  constructor
  · cases raw with
    | arr items =>
        rw [readStorage]
        by_cases hnull : items.any (fun v => match v with | JValue.null => true | _ => false)
        · rw [if_pos hnull]
          exact List.Pairwise.nil
        · rw [if_neg hnull]
          have hsorted := @List.sorted_mergeSort ChatSession
            (fun a b => decide (b.createdAt ≤ a.createdAt))
            (fun a b c hab hbc => by
              simp only [decide_eq_true_eq] at hab hbc ⊢
              omega)
            (fun a b => by
              simp only [Bool.or_eq_true, decide_eq_true_eq]
              omega)
            (items.map (normalizeSession fresh now))
          exact hsorted.imp (fun h => by simpa using h)
    | null => exact List.Pairwise.nil
    | bool b => exact List.Pairwise.nil
    | num n => exact List.Pairwise.nil
    | str s => exact List.Pairwise.nil
    | obj fields => exact List.Pairwise.nil
  · intro items hraw hnn
    subst hraw
    have hany : items.any (fun v => match v with | JValue.null => true | _ => false)
        = false := by
      rw [List.any_eq_false]
      intro v hv
      cases v with
      | null => exact absurd rfl (hnn _ hv)
      | bool b => simp
      | num n => simp
      | str s => simp
      | arr xs => simp
      | obj fs => simp
    rw [readStorage]
    simp only [hany, Bool.false_eq_true, if_false]
    exact List.mergeSort_perm _ _

/-- Two stored records whose persisted order disagrees with their creation
timestamps. -/
def storedOld : JValue := .obj [("id", .str "old"), ("createdAt", .num 1)]

/-- The newer stored record, persisted after the older one. -/
def storedNew : JValue := .obj [("id", .str "new"), ("createdAt", .num 5)]

/-- Witness for C10: loading the two concrete records persisted oldest-first
yields a newest-first, permutation-equal collection. -/
theorem readStorage_c10_witness :
    List.Pairwise (fun a b => b.createdAt ≤ a.createdAt)
      (readStorage "f" 9 (.arr [storedOld, storedNew])) ∧
    (readStorage "f" 9 (.arr [storedOld, storedNew])).Perm
      ([storedOld, storedNew].map (normalizeSession "f" 9)) := by
  refine ⟨(readStorage_c10 "f" 9 (.arr [storedOld, storedNew])).1, ?_⟩
  refine (readStorage_c10 "f" 9 (.arr [storedOld, storedNew])).2 _ rfl ?_
  intro v hv
  simp only [List.mem_cons, List.mem_singleton, List.not_mem_nil, or_false] at hv
  rcases hv with rfl | rfl
  · simp [storedOld]
  · simp [storedNew]

/-! Claim C2: the submit-poll-complete scenario. The full flow records five
history entries, not three: the submit-time QUEUED entry, the three polled
entries, and the success-handler's COMPLETED entry. -/

/-- The claim's scenario stitched from the source flows: the video branch of
`handleSubmit` registers the job, three polls observe QUEUED,
ANALYZING_SCRIPT and COMPLETED (with a video URL), and the poller's
`onSuccess` handler `handleJobSuccess` runs on the final payload. -/
def videoFlowRun (sid jid model url p1 p2 p3 : String)
    (t0 t1 t2 t3 t4 : Int) (T0 T1 T2 T3 m0 m1 : String)
    (ajm : Option String) (sm : String) (st : StoreState) : StoreState :=
  let stA := submitVideoJob sid jid model T0 m0 t0 st
  let r1 := pollStep sid jid T1 t1
    (.ok { status := "QUEUED", progress := p1, video_url := none, image_urls := none })
    initialPollerState stA
  let r2 := pollStep sid jid T2 t2
    (.ok { status := "ANALYZING_SCRIPT", progress := p2, video_url := none,
           image_urls := none })
    r1.1 r1.2.1
  let d3 : JobStatus :=
    { status := "COMPLETED", progress := p3, video_url := some url, image_urls := none }
  let r3 := pollStep sid jid T3 t3 (.ok d3) r2.1 r2.2.1
  handleJobSuccess sid jid d3 t4 m1 ajm sm r3.2.1

/-- Counterexample to C2: in the concrete QUEUED → ANALYZING_SCRIPT →
COMPLETED run with a video URL, the session's `videoUrl` is set and the
job ends COMPLETED, but the job history holds five entries, not three. -/
theorem videoFlow_c2_counterexample :
    ((videoFlowRun "s" "j" "m" "u" "p1" "p2" "p3" 0 1 2 3 4 "T0" "T1" "T2" "T3" "m0" "m1"
        none "m" (fixtureStore (fixtureSession "s" 0 [] []))).sessions.head?).map
      (fun s => (s.videoUrl,
        (s.jobs.lookup "j").map (fun j => (j.status, j.history.length))))
      = some (some "u", some ("COMPLETED", 5)) ∧
    ¬ (5 = 3) := by
  exact ⟨rfl, by decide⟩

/-- The job record at the end of the C2 scenario: created at submission,
completed, carrying the video URL, with the five-entry history — the
submit-time QUEUED entry, the three polled entries in observation order,
and the success-handler entry. -/
def videoFlowFinalJob (jid model url p1 p2 p3 : String) (t0 t1 t2 t3 t4 : Int) : SessionJob :=
  { id := jid, tool := .str "video", model := model, createdAt := t0,
    status := "COMPLETED", progress := some (jsOr p3 "Video ready"),
    history :=
      [{ status := "QUEUED", progress := some "Awaiting generation...", timestamp := t0 },
       { status := "QUEUED", progress := some p1, timestamp := t1 },
       { status := "ANALYZING_SCRIPT", progress := some p2, timestamp := t2 },
       { status := "COMPLETED", progress := some p3, timestamp := t3 },
       { status := "COMPLETED", progress := some (jsOr p3 "Video ready"), timestamp := t4 }],
    videoUrl := some url, imageUrls := none }

/-- The job record registered by the video branch of `handleSubmit`, after
its submit-time QUEUED entry has been appended. -/
def submitJobRecord (jid model : String) (t0 : Int) : SessionJob :=
  { id := jid, tool := .str "video", model := model, createdAt := t0,
    status := "QUEUED", progress := some "Awaiting generation...",
    history := [{ status := "QUEUED", progress := some "Awaiting generation...",
                  timestamp := t0 }],
    videoUrl := none, imageUrls := none }

/-- The assistant info message posted by the video branch of
`handleSubmit`. -/
def submitAssistantMessage (model m0 jid : String) (t0 : Int) : ChatMessage :=
  { id := m0, role := "assistant",
    content := "Running " ++ model ++ ". I will share status updates here.",
    tool := some (.str "video"), model := some model, attachments := [],
    status := some "info", timestamp := t0, videoUrl := none,
    imageUrls := none, data := none, jobId := some jid }

/-- The COMPLETED status payload carrying a video URL. -/
def completedPayload (p3 url : String) : JobStatus :=
  { status := "COMPLETED", progress := p3, video_url := some url, image_urls := none }

/-- The video branch of `handleSubmit` on a store holding one owning
session: the job is registered under its identifier with the submit-time
QUEUED entry, the session gets its job pointer, a log line and the
assistant message. -/
theorem submitVideoJob_singleton (sid jid model T0 m0 : String) (t0 : Int)
    (act : Option String) (s : ChatSession) (hid : s.id = sid) :
    ∃ s2, submitVideoJob sid jid model T0 m0 t0
        { sessions := [s], activeSessionId := act }
      = { sessions := [s2], activeSessionId := act } ∧
      s2.id = s.id ∧ s2.videoUrl = s.videoUrl ∧
      s2.jobs = insertAssoc s.jobs jid (submitJobRecord jid model t0) := by
  refine ⟨{ s with
      statusHistory := lastN 50 (s.statusHistory
        ++ [.str (T0 ++ " • Job queued with " ++ model)])
      messages := s.messages ++ [submitAssistantMessage model m0 jid t0]
      jobId := some jid
      jobs := (insertAssoc s.jobs jid (submitJobRecord jid model t0)) },
    ?_, rfl, rfl, rfl⟩
  simp only [submitVideoJob, registerJob, appendJobStatus, appendStatus, updateSession,
    updateJob, appendMessage, applySessionPatch, emptySessionPatch, List.map_cons,
    List.map_nil]
  simp [hid, lookup_insertAssoc_self, insertAssoc_insertAssoc, submitJobRecord,
    submitAssistantMessage]

/-- One successful non-terminal poll on a store holding one owning session:
the observed pair is written to the job and appended to its history; only
the session's string log and the poller's dedup marker depend on the dedup
comparison, which the existentials hide. -/
theorem pollStep_ok_mid_singleton (sid jid tS : String) (n : Int) (data : JobStatus)
    (hC : ¬ data.status = "COMPLETED") (hF : ¬ data.status = "FAILED")
    (ps : PollerState) (act : Option String) (s : ChatSession) (hid : s.id = sid)
    (job : SessionJob) (hjob : s.jobs.lookup jid = some job) :
    ∃ ps2 s2,
      pollStep sid jid tS n (.ok data) ps { sessions := [s], activeSessionId := act }
        = (ps2, { sessions := [s2], activeSessionId := act }, []) ∧
      s2.id = s.id ∧ s2.videoUrl = s.videoUrl ∧
      s2.jobs = insertAssoc s.jobs jid
        (jobWithHistory job data.status (some data.progress)
          [{ status := data.status, progress := some data.progress, timestamp := n }]) := by
  by_cases hd : data.status ++ "-" ++ data.progress = ps.lastStatusRef
  · refine ⟨{ ps with lastData := some data, failureCount := 0 },
      { s with jobs := (insertAssoc s.jobs jid
        (jobWithHistory job data.status (some data.progress)
          [{ status := data.status, progress := some data.progress, timestamp := n }])) },
      ?_, rfl, rfl, rfl⟩
    simp only [pollStep, if_pos hd, if_neg hC, if_neg hF]
    simp [appendJobStatus, updateJob, hid, hjob, lookup_insertAssoc_self,
      insertAssoc_insertAssoc, applyJobPatch, emptyJobPatch, jobWithHistory]
  · refine ⟨{ ps with
        lastData := some data
        failureCount := 0
        lastStatusRef := data.status ++ "-" ++ data.progress },
      { s with
        statusHistory := lastN 50 (s.statusHistory
          ++ [.str (tS ++ " • " ++ data.status.replace "_" " " ++ " — "
                ++ jsOr data.progress "")])
        jobs := (insertAssoc s.jobs jid
          (jobWithHistory job data.status (some data.progress)
            [{ status := data.status, progress := some data.progress, timestamp := n }])) },
      ?_, rfl, rfl, rfl⟩
    simp only [pollStep, if_neg hd, if_neg hC, if_neg hF]
    simp [appendJobStatus, appendStatus, updateJob, hid, hjob, lookup_insertAssoc_self,
      insertAssoc_insertAssoc, applyJobPatch, emptyJobPatch, jobWithHistory]

/-- The COMPLETED poll with a non-empty video URL on a store holding one
owning session: the URL reaches both the session and the job, the
COMPLETED entry is appended, and the success callback fires. -/
theorem pollStep_completed_singleton (sid jid tS : String) (n : Int) (p3 url : String)
    (hurl : ¬ url = "") (ps : PollerState) (act : Option String)
    (s : ChatSession) (hid : s.id = sid) (job : SessionJob)
    (hjob : s.jobs.lookup jid = some job) :
    ∃ ps2 s2,
      pollStep sid jid tS n (.ok (completedPayload p3 url)) ps
          { sessions := [s], activeSessionId := act }
        = (ps2, { sessions := [s2], activeSessionId := act },
           [.success (completedPayload p3 url) jid]) ∧
      s2.id = s.id ∧ s2.videoUrl = some url ∧
      s2.jobs = insertAssoc s.jobs jid
        { jobWithHistory job "COMPLETED" (some p3)
            [{ status := "COMPLETED", progress := some p3, timestamp := n }]
          with videoUrl := some url } := by
  by_cases hd : "COMPLETED" ++ "-" ++ p3 = ps.lastStatusRef
  · refine ⟨{ ps with
        lastData := some (completedPayload p3 url)
        failureCount := 0
        isPolling := false },
      { s with
        videoUrl := some url
        jobs := (insertAssoc s.jobs jid
          { jobWithHistory job "COMPLETED" (some p3)
              [{ status := "COMPLETED", progress := some p3, timestamp := n }]
            with videoUrl := some url }) }, ?_, rfl, rfl, rfl⟩
    simp only [pollStep, completedPayload, if_pos hd]
    simp [appendJobStatus, updateJob, updateSession, applySessionPatch,
      emptySessionPatch, truthyStr, hurl, hid, hjob, lookup_insertAssoc_self,
      insertAssoc_insertAssoc, applyJobPatch, emptyJobPatch, jobWithHistory,
      completedPayload]
  · refine ⟨{ ps with
        lastData := some (completedPayload p3 url)
        failureCount := 0
        lastStatusRef := "COMPLETED" ++ "-" ++ p3
        isPolling := false },
      { s with
        statusHistory := lastN 50 (s.statusHistory
          ++ [.str (tS ++ " • " ++ ("COMPLETED").replace "_" " " ++ " — " ++ jsOr p3 "")])
        videoUrl := some url
        jobs := (insertAssoc s.jobs jid
          { jobWithHistory job "COMPLETED" (some p3)
              [{ status := "COMPLETED", progress := some p3, timestamp := n }]
            with videoUrl := some url }) }, ?_, rfl, rfl, rfl⟩
    simp only [pollStep, completedPayload, if_neg hd]
    simp [appendJobStatus, appendStatus, updateJob, updateSession, applySessionPatch,
      emptySessionPatch, truthyStr, hurl, hid, hjob, lookup_insertAssoc_self,
      insertAssoc_insertAssoc, applyJobPatch, emptyJobPatch, jobWithHistory,
      completedPayload]

/-- The success message posted by `handleJobSuccess` for a video result. -/
def successAssistantMessage (m1 jid url : String) (t4 : Int) (job : SessionJob) : ChatMessage :=
  { id := m1, role := "assistant", content := "Your video is ready!",
    status := some "success", timestamp := t4, videoUrl := some url,
    tool := some (nullishOr (some job.tool) (.str "video")),
    model := some job.model,
    attachments := [], imageUrls := none, data := none, jobId := some jid }

/-- The success handler for a video payload on a store holding one owning
session: the job is finalized with the URL and the success-time COMPLETED
entry, and the success message is posted. -/
theorem handleJobSuccess_singleton (sid jid p3 url : String) (hurl : ¬ url = "")
    (t4 : Int) (m1 : String) (ajm : Option String) (sm : String) (act : Option String)
    (s : ChatSession) (hid : s.id = sid) (job : SessionJob)
    (hjob : s.jobs.lookup jid = some job) :
    ∃ s2,
      handleJobSuccess sid jid (completedPayload p3 url) t4 m1 ajm sm
          { sessions := [s], activeSessionId := act }
        = { sessions := [s2], activeSessionId := act } ∧
      s2.id = s.id ∧ s2.videoUrl = s.videoUrl ∧
      s2.jobs = insertAssoc s.jobs jid
        { jobWithHistory job "COMPLETED" (some (jsOr p3 "Video ready"))
            [{ status := "COMPLETED", progress := some (jsOr p3 "Video ready"),
               timestamp := t4 }]
          with videoUrl := some url } := by
  refine ⟨{ s with
      messages := s.messages ++ [successAssistantMessage m1 jid url t4 job]
      jobs := (insertAssoc s.jobs jid
        { jobWithHistory job "COMPLETED" (some (jsOr p3 "Video ready"))
            [{ status := "COMPLETED", progress := some (jsOr p3 "Video ready"),
               timestamp := t4 }]
          with videoUrl := some url }) }, ?_, rfl, rfl, rfl⟩
  simp only [handleJobSuccess, completedPayload]
  simp [truthyStr, hurl, hid, hjob, updateJob, appendJobStatus, appendMessage,
    lookup_insertAssoc_self, insertAssoc_insertAssoc, applyJobPatch, emptyJobPatch,
    jobWithHistory, successAssistantMessage]

/-- Amended C2: in the QUEUED → ANALYZING_SCRIPT → COMPLETED scenario with a
non-empty video URL, the owning session ends with `videoUrl` set to that
URL and the job COMPLETED with the URL attached — and its history holds
exactly five entries: the submit-time QUEUED entry, the three polled
entries in that order, and the success-handler's COMPLETED entry. -/
theorem videoFlow_c2_amended (sid jid model url p1 p2 p3 : String)
    (t0 t1 t2 t3 t4 : Int) (T0 T1 T2 T3 m0 m1 : String)
    (ajm : Option String) (sm : String) (s0 : ChatSession)
    (hid : s0.id = sid) (hurl : ¬ url = "") :
    ∃ s', (videoFlowRun sid jid model url p1 p2 p3 t0 t1 t2 t3 t4 T0 T1 T2 T3 m0 m1
        ajm sm { sessions := [s0], activeSessionId := some sid }).sessions = [s'] ∧
      s'.videoUrl = some url ∧
      s'.jobs.lookup jid
        = some (videoFlowFinalJob jid model url p1 p2 p3 t0 t1 t2 t3 t4) := by
  obtain ⟨s1, e1, hid1, hvu1, hjobs1⟩ :=
    submitVideoJob_singleton sid jid model T0 m0 t0 (some sid) s0 hid
  have hjob1 : s1.jobs.lookup jid = some (submitJobRecord jid model t0) := by
    rw [hjobs1]
    exact lookup_insertAssoc_self _ _ _
  obtain ⟨ps2, s2, e2, hid2, hvu2, hjobs2⟩ :=
    pollStep_ok_mid_singleton sid jid T1 t1
      { status := "QUEUED", progress := p1, video_url := none, image_urls := none }
      (by simp) (by simp) initialPollerState (some sid) s1 (hid1.trans hid) _ hjob1
  have hjob2 : s2.jobs.lookup jid
      = some (jobWithHistory (submitJobRecord jid model t0) "QUEUED" (some p1)
          [{ status := "QUEUED", progress := some p1, timestamp := t1 }]) := by
    rw [hjobs2]
    exact lookup_insertAssoc_self _ _ _
  obtain ⟨ps3, s3, e3, hid3, hvu3, hjobs3⟩ :=
    pollStep_ok_mid_singleton sid jid T2 t2
      { status := "ANALYZING_SCRIPT", progress := p2, video_url := none,
        image_urls := none }
      (by simp) (by simp) ps2 (some sid) s2 (hid2.trans (hid1.trans hid)) _ hjob2
  have hjob3 : s3.jobs.lookup jid
      = some (jobWithHistory (jobWithHistory (submitJobRecord jid model t0) "QUEUED"
          (some p1) [{ status := "QUEUED", progress := some p1, timestamp := t1 }])
          "ANALYZING_SCRIPT" (some p2)
          [{ status := "ANALYZING_SCRIPT", progress := some p2, timestamp := t2 }]) := by
    rw [hjobs3]
    exact lookup_insertAssoc_self _ _ _
  obtain ⟨ps4, s4, e4, hid4, hvu4, hjobs4⟩ :=
    pollStep_completed_singleton sid jid T3 t3 p3 url hurl ps3 (some sid) s3
      (hid3.trans (hid2.trans (hid1.trans hid))) _ hjob3
  have hjob4 : s4.jobs.lookup jid
      = some { jobWithHistory (jobWithHistory (jobWithHistory
            (submitJobRecord jid model t0) "QUEUED" (some p1)
            [{ status := "QUEUED", progress := some p1, timestamp := t1 }])
            "ANALYZING_SCRIPT" (some p2)
            [{ status := "ANALYZING_SCRIPT", progress := some p2, timestamp := t2 }])
            "COMPLETED" (some p3)
            [{ status := "COMPLETED", progress := some p3, timestamp := t3 }]
          with videoUrl := some url } := by
    rw [hjobs4]
    exact lookup_insertAssoc_self _ _ _
  obtain ⟨s5, e5, hid5, hvu5, hjobs5⟩ :=
    handleJobSuccess_singleton sid jid p3 url hurl t4 m1 ajm sm (some sid) s4
      (hid4.trans (hid3.trans (hid2.trans (hid1.trans hid)))) _ hjob4
  have hrun : videoFlowRun sid jid model url p1 p2 p3 t0 t1 t2 t3 t4 T0 T1 T2 T3 m0 m1
      ajm sm { sessions := [s0], activeSessionId := some sid }
      = { sessions := [s5], activeSessionId := some sid } := by
    simp only [videoFlowRun]
    rw [e1, e2]
    show handleJobSuccess sid jid (completedPayload p3 url) t4 m1 ajm sm
      (pollStep sid jid T3 t3 (.ok (completedPayload p3 url))
        (pollStep sid jid T2 t2
          (.ok { status := "ANALYZING_SCRIPT", progress := p2, video_url := none,
                 image_urls := none }) ps2
          { sessions := [s2], activeSessionId := some sid }).1
        (pollStep sid jid T2 t2
          (.ok { status := "ANALYZING_SCRIPT", progress := p2, video_url := none,
                 image_urls := none }) ps2
          { sessions := [s2], activeSessionId := some sid }).2.1).2.1
      = { sessions := [s5], activeSessionId := some sid }
    rw [e3]
    show handleJobSuccess sid jid (completedPayload p3 url) t4 m1 ajm sm
      (pollStep sid jid T3 t3 (.ok (completedPayload p3 url)) ps3
        { sessions := [s3], activeSessionId := some sid }).2.1
      = { sessions := [s5], activeSessionId := some sid }
    rw [e4]
    exact e5
  refine ⟨s5, ?_, by rw [hvu5, hvu4], ?_⟩
  · rw [hrun]
  · rw [hjobs5, hjobs4, insertAssoc_insertAssoc, lookup_insertAssoc_self]
    simp [jobWithHistory, submitJobRecord, videoFlowFinalJob, jsOr]

/-- Witness for the amended C2 at a concrete store and concrete inputs. -/
theorem videoFlow_c2_amended_witness :
    ∃ s', (videoFlowRun "s" "j" "m" "u" "p1" "p2" "p3" 0 1 2 3 4 "T0" "T1" "T2" "T3"
        "m0" "m1" none "m"
        { sessions := [fixtureSession "s" 7 [] []], activeSessionId := some "s"
        }).sessions = [s'] ∧
      s'.videoUrl = some "u" ∧
      s'.jobs.lookup "j" = some (videoFlowFinalJob "j" "m" "u" "p1" "p2" "p3" 0 1 2 3 4) := by
  exact videoFlow_c2_amended "s" "j" "m" "u" "p1" "p2" "p3" 0 1 2 3 4 "T0" "T1" "T2" "T3"
    "m0" "m1" none "m" (fixtureSession "s" 7 [] []) rfl (by decide)

/-! Claim C4: idempotence of session normalization and the storage round
trip. The development below characterizes the image of normalization and
shows a second pass through the JSON image is the identity. -/

/-- Reading a string-typed field back from its serialized form. -/
theorem strOpt_map_str (o : Option String) : strOpt (o.map JValue.str) = o := by
  cases o <;> rfl

/-- String arrays survive serialization and the string filter. -/
theorem filterStrings_map_str (us : List String) :
    filterStrings (us.map JValue.str) = us := by
  induction us with
  | nil => rfl
  | cons u us ih =>
      simp only [List.map_cons, filterStrings, List.filterMap_cons] at ih ⊢
      rw [ih]

/-- An optional string array survives serialization. -/
theorem strArrOpt_map (o : Option (List String)) :
    strArrOpt (o.map (fun us => JValue.arr (us.map JValue.str))) = o := by
  cases o with
  | none => rfl
  | some us =>
      simp only [Option.map_some', strArrOpt]
      rw [filterStrings_map_str]

/-- Nullish coalescing is the identity away from `null` and `undefined`. -/
theorem nullishOrUndef_of_ne_null {t : Option JValue} (h : ¬ t = some JValue.null) :
    nullishOrUndef t = t := by
  cases t with
  | none => rfl
  | some v => cases v <;> first | exact absurd rfl h | rfl

/-- Nullish coalescing on a present non-null value returns it. -/
theorem nullishOr_of_ne_null {v : JValue} (h : ¬ v = JValue.null) (d : JValue) :
    nullishOr (some v) d = v := by
  cases v <;> first | exact absurd rfl h | rfl

/-- Nullish coalescing never produces `null` when its default is not
`null`. -/
theorem nullishOr_ne_null {d : JValue} (hd : ¬ d = JValue.null) (v : Option JValue) :
    ¬ nullishOr v d = JValue.null := by
  cases v with
  | none => exact hd
  | some w => cases w <;> first | exact hd | simp [nullishOr]

/-- A history entry survives serialization and renormalization. -/
theorem normalizeJobHistoryEntry_round (now : Int) (e : JobStatusEntry) :
    normalizeJobHistoryEntry now (entryToJValue e) = some e := by
  obtain ⟨stat, prog, ts⟩ := e
  cases prog <;>
    simp [entryToJValue, normalizeJobHistoryEntry, optField, JValue.get, strOr, strOpt,
      numOr]

/-- A serialized history renormalizes to itself. -/
theorem normalizeJobHistory_round (now : Int) (es : List JobStatusEntry) :
    normalizeJobHistory now (some (.arr (es.map entryToJValue))) = es := by
  induction es with
  | nil => rfl
  | cons e es ih =>
      simp only [normalizeJobHistory, List.map_cons, List.filterMap_cons,
        normalizeJobHistoryEntry_round] at ih ⊢
      rw [ih]

/-- An attachment record survives serialization and renormalization. -/
theorem normalizeAttachment_round (a : AttachmentMeta) :
    normalizeAttachment (attToJValue a) = some a := by
  obtain ⟨name, size⟩ := a
  simp [attToJValue, normalizeAttachment, JValue.hasKey, JValue.get, jsToNumber]

/-- A serialized attachment list renormalizes to itself. -/
theorem normalizeAttachments_round (as : List AttachmentMeta) :
    normalizeAttachments (some (.arr (as.map attToJValue))) = as := by
  induction as with
  | nil => rfl
  | cons a as ih =>
      simp only [normalizeAttachments, List.map_cons, List.filterMap_cons,
        normalizeAttachment_round] at ih ⊢
      rw [ih]

/-- The invariants `normalizeMessage` guarantees on its output, which are
exactly what the second pass needs to reproduce the record. -/
def MsgWF (m : ChatMessage) : Prop :=
  (m.role = "user" ∨ m.role = "assistant") ∧
  (m.status = none ∨ m.status = some "success" ∨ m.status = some "error" ∨
    m.status = some "info") ∧
  ¬ m.tool = some JValue.null

/-- Every message produced by `normalizeMessage` is well-formed. -/
theorem normalizeMessage_wf (fresh : String) (now : Int) (v : JValue)
    (m : ChatMessage) (h : normalizeMessage fresh now v = some m) : MsgWF m := by
  cases v with
  | null => exact absurd h (by simp [normalizeMessage])
  | bool b => exact absurd h (by simp [normalizeMessage])
  | num n => exact absurd h (by simp [normalizeMessage])
  | str s => exact absurd h (by simp [normalizeMessage])
  | arr xs =>
      simp only [normalizeMessage, Option.some.injEq] at h
      subst h
      refine ⟨?_, ?_, ?_⟩
      · split <;> simp
      · split <;> split <;> simp
      · show ¬ nullishOrUndef ((JValue.arr xs).get "tool") = some JValue.null
        unfold nullishOrUndef
        split <;> simp_all
  | obj fields =>
      simp only [normalizeMessage, Option.some.injEq] at h
      subst h
      refine ⟨?_, ?_, ?_⟩
      · split <;> simp
      · split <;> split <;> simp
      · show ¬ nullishOrUndef ((JValue.obj fields).get "tool") = some JValue.null
        unfold nullishOrUndef
        split <;> simp_all

/-- A well-formed message survives serialization and renormalization. -/
theorem normalizeMessage_round (fresh : String) (now : Int) (m : ChatMessage)
    (hm : MsgWF m) : normalizeMessage fresh now (msgToJValue m) = some m := by
  obtain ⟨hrole, hstatus, htool⟩ := hm
  obtain ⟨id, role, content, tool, model, attachments, status, timestamp, videoUrl,
    imageUrls, data, jobId⟩ := m
  simp only at hrole hstatus htool
  rcases hrole with rfl | rfl <;>
    rcases hstatus with rfl | rfl | rfl | rfl <;>
      simp [msgToJValue, normalizeMessage, JValue.get, strOr, strOpt_map_str,
        nullishOrUndef_of_ne_null htool, normalizeAttachments_round, numOr,
        strArrOpt_map]

/-- `insertAssoc` keeps association-list keys duplicate-free. -/
theorem nodupKeys_insertAssoc {β : Type} {l : List (String × β)}
    (h : (l.map Prod.fst).Nodup) (k : String) (v : β) :
    ((insertAssoc l k v).map Prod.fst).Nodup := by
  rw [keys_insertAssoc]
  split
  · exact h
  · next hk => exact List.Nodup.append h (List.nodup_singleton k) (by simpa using hk)

/-- The shape invariants `normalizeJobs` guarantees on the produced job map:
keys match the stored job's id, the coalesced tool is never `null`, and the
keys are duplicate-free. -/
def JobsInv (jobs : List (String × SessionJob)) : Prop :=
  (∀ p ∈ jobs, p.1 = p.2.id ∧ ¬ p.2.tool = JValue.null) ∧
  (jobs.map Prod.fst).Nodup

/-- A well-keyed assignment preserves the job-map shape invariant. -/
theorem jobsInv_insertAssoc {l : List (String × SessionJob)} {k : String}
    {v : SessionJob} (hl : JobsInv l) (hk : k = v.id)
    (ht : ¬ v.tool = JValue.null) : JobsInv (insertAssoc l k v) := by
  refine ⟨?_, nodupKeys_insertAssoc hl.2 k v⟩
  intro p hp
  rcases mem_insertAssoc hp with h | h
  · exact hl.1 p h
  · rw [h]
    exact ⟨hk, ht⟩

/-- One `normalizeJobs` reduce step preserves the shape invariant. -/
theorem normalizeJobsStep_inv (now : Int) (acc : List (String × SessionJob))
    (p : JValue × JValue) (h : JobsInv acc) :
    JobsInv (normalizeJobsStep now acc p) := by
  have htool : ∀ q : Option JValue,
      ¬ nullishOr q (JValue.str "video") = JValue.null :=
    fun q => nullishOr_ne_null (fun hh => JValue.noConfusion hh) q
  cases hp : p.2 <;> simp only [normalizeJobsStep, hp]
  · exact h
  · exact h
  · exact h
  · exact h
  · rename_i xs
    refine jobsInv_insertAssoc h rfl ?_
    show ¬ nullishOr ((JValue.arr xs).get "tool") (JValue.str "video") = JValue.null
    exact htool _
  · rename_i fields
    refine jobsInv_insertAssoc h rfl ?_
    show ¬ nullishOr ((JValue.obj fields).get "tool") (JValue.str "video") = JValue.null
    exact htool _

/-- The `normalizeJobs` fold preserves the shape invariant. -/
theorem foldl_normalizeJobsStep_inv (now : Int) (entries : List (JValue × JValue))
    (acc : List (String × SessionJob)) (h : JobsInv acc) :
    JobsInv (entries.foldl (normalizeJobsStep now) acc) := by
  induction entries generalizing acc with
  | nil => exact h
  | cons e t ih => exact ih _ (normalizeJobsStep_inv now acc e h)

/-- Every job map produced by `normalizeJobs` satisfies the shape
invariant. -/
theorem normalizeJobs_inv (now : Int) (v : Option JValue) :
    JobsInv (normalizeJobs now v) :=
  foldl_normalizeJobsStep_inv now _ [] ⟨by simp, List.nodup_nil⟩

/-- A reduce step over the serialized image of a stored job rewrites it to
an assignment of the job itself under its id. -/
theorem normalizeJobsStep_round (now : Int) (acc : List (String × SessionJob))
    (k : String) (j : SessionJob) (ht : ¬ j.tool = JValue.null) :
    normalizeJobsStep now acc (JValue.str k, jobToJValue j)
      = insertAssoc acc j.id j := by
  obtain ⟨id, tool, model, createdAt, status, progress, history, videoUrl,
    imageUrls⟩ := j
  simp only at ht
  cases progress <;> cases videoUrl <;> cases imageUrls <;>
    simp [jobToJValue, normalizeJobsStep, JValue.get, optField, strOr, strOpt,
      numOr, nullishOr_of_ne_null ht, normalizeJobHistory_round, strArrOpt,
      filterStrings_map_str]

/-- Folding the serialized image of a well-formed job map onto a
key-disjoint accumulator appends the stored jobs unchanged. -/
theorem foldl_jobs_round (now : Int) (jobs : List (String × SessionJob)) :
    ∀ acc : List (String × SessionJob),
      (∀ p ∈ jobs, p.1 = p.2.id ∧ ¬ p.2.tool = JValue.null) →
      (acc.map Prod.fst ++ jobs.map Prod.fst).Nodup →
      (jobs.map fun p => (JValue.str p.1, jobToJValue p.2)).foldl
        (normalizeJobsStep now) acc = acc ++ jobs := by
  induction jobs with
  | nil => intro acc _ _; simp
  | cons q t ih =>
      intro acc hwf hnd
      obtain ⟨k, j⟩ := q
      obtain ⟨hk, htool⟩ := hwf (k, j) (List.mem_cons_self _ _)
      simp only at hk htool
      subst hk
      have hnotin : j.id ∉ acc.map Prod.fst := by
        intro hin
        exact (List.nodup_append.mp hnd).2.2 hin (by simp)
      have hnd' : ((acc ++ [(j.id, j)]).map Prod.fst ++ t.map Prod.fst).Nodup := by
        simpa [List.append_assoc] using hnd
      rw [List.map_cons, List.foldl_cons, normalizeJobsStep_round now acc j.id j htool,
        insertAssoc_of_not_mem hnotin,
        ih _ (fun p hp => hwf p (List.mem_cons_of_mem _ hp)) hnd',
        List.append_assoc, List.singleton_append]

/-- A serialized well-formed job map renormalizes to itself. -/
theorem normalizeJobs_round (now : Int) (jobs : List (String × SessionJob))
    (hwf : ∀ p ∈ jobs, p.1 = p.2.id ∧ ¬ p.2.tool = JValue.null)
    (hnd : (jobs.map Prod.fst).Nodup) :
    normalizeJobs now (some (.obj (jobs.map fun p => (p.1, jobToJValue p.2))))
      = jobs := by
  have h := foldl_jobs_round now jobs [] hwf (by simpa using hnd)
  simpa [normalizeJobs, List.map_map, Function.comp] using h

/-- A serialized list of well-formed messages renormalizes to itself. -/
theorem normalizeMessages_round (fresh : String) (now : Int)
    (ms : List ChatMessage) (h : ∀ m ∈ ms, MsgWF m) :
    (ms.map msgToJValue).filterMap (normalizeMessage fresh now) = ms := by
  induction ms with
  | nil => rfl
  | cons m t ih =>
      simp only [List.map_cons, List.filterMap_cons,
        normalizeMessage_round fresh now m (h m (List.mem_cons_self _ _))]
      rw [ih fun x hx => h x (List.mem_cons_of_mem _ hx)]

/-- The invariants `normalizeSession` guarantees on its output: the
coalesced tool is never `null`, every message is well-formed, and the job
map satisfies the shape invariant. These are exactly what a second
normalization pass needs to reproduce the record. -/
def SessionWF (s : ChatSession) : Prop :=
  ¬ s.tool = JValue.null ∧ (∀ m ∈ s.messages, MsgWF m) ∧
  (∀ p ∈ s.jobs, p.1 = p.2.id ∧ ¬ p.2.tool = JValue.null) ∧
  (s.jobs.map Prod.fst).Nodup

/-- Every session produced by `normalizeSession` is well-formed. -/
theorem normalizeSession_wf (fresh : String) (now : Int) (x : JValue) :
    SessionWF (normalizeSession fresh now x) := by
  refine ⟨?_, ?_, (normalizeJobs_inv now (x.get "jobs")).1,
    (normalizeJobs_inv now (x.get "jobs")).2⟩
  · show ¬ nullishOr (x.get "tool") (JValue.str "video") = JValue.null
    exact nullishOr_ne_null (fun hh => JValue.noConfusion hh) _
  · intro m hm
    simp only [normalizeSession] at hm
    rcases List.mem_filterMap.mp hm with ⟨v, _, hnm⟩
    exact normalizeMessage_wf fresh now v m hnm

/-- A well-formed session survives serialization and renormalization. -/
theorem normalizeSession_round (fresh : String) (now : Int) (s : ChatSession)
    (hs : SessionWF s) : normalizeSession fresh now (sessionToJValue s) = s := by
  obtain ⟨htool, hmsgs, hjobs, hnd⟩ := hs
  obtain ⟨id, prompt, tool, model, createdAt, videoUrl, statusHistory, attachments,
    messages, jobId, jobs, pinned⟩ := s
  simp only at htool hmsgs hjobs hnd
  cases videoUrl <;> cases jobId <;>
    simp [sessionToJValue, normalizeSession, JValue.get, strOpt, numOr, jsToString,
      nullishOr_of_ne_null htool, normalizeMessages_round fresh now messages hmsgs,
      normalizeJobs_round now jobs hjobs hnd]

/-- Every session delivered by `readStorage` is well-formed: the stored
collection is normalized element by element before sorting. -/
theorem readStorage_wf (fresh : String) (now : Int) (raw : JValue)
    (s : ChatSession) (hs : s ∈ readStorage fresh now raw) : SessionWF s := by
  cases raw with
  | arr items =>
      simp only [readStorage] at hs
      split at hs
      · exact absurd hs (List.not_mem_nil s)
      · rcases List.mem_map.mp (List.mem_mergeSort.mp hs) with ⟨v, _, rfl⟩
        exact normalizeSession_wf fresh now v
  | null => exact absurd hs (List.not_mem_nil s)
  | bool b => exact absurd hs (List.not_mem_nil s)
  | num n => exact absurd hs (List.not_mem_nil s)
  | str v => exact absurd hs (List.not_mem_nil s)
  | obj fields => exact absurd hs (List.not_mem_nil s)

/-- `readStorage` output is sorted newest-first by creation timestamp. -/
theorem readStorage_sorted (fresh : String) (now : Int) (raw : JValue) :
    (readStorage fresh now raw).Pairwise
      (fun a b => decide (b.createdAt ≤ a.createdAt) = true) := by
  cases raw with
  | arr items =>
      simp only [readStorage]
      split
      · exact List.Pairwise.nil
      · exact List.sorted_mergeSort
          (fun a b c hab hbc => by
            simp only [decide_eq_true_eq] at hab hbc ⊢
            exact le_trans hbc hab)
          (fun a b => by
            rcases le_total a.createdAt b.createdAt with h | h <;> simp [h])
          _
  | null => exact List.Pairwise.nil
  | bool b => exact List.Pairwise.nil
  | num n => exact List.Pairwise.nil
  | str v => exact List.Pairwise.nil
  | obj fields => exact List.Pairwise.nil

/-- Claim C4: session normalization is idempotent — re-normalizing the
serialized image of a normalized session reproduces it exactly — and the
storage round trip is lossless: serializing the loaded collection and
reading it back yields the same session list. -/
theorem normalizeSession_c4 :
    (∀ (f1 f2 : String) (n1 n2 : Int) (x : JValue),
        normalizeSession f2 n2 (sessionToJValue (normalizeSession f1 n1 x))
          = normalizeSession f1 n1 x) ∧
    (∀ (f1 f2 : String) (n1 n2 : Int) (raw : JValue),
        readStorage f2 n2 (.arr ((readStorage f1 n1 raw).map sessionToJValue))
          = readStorage f1 n1 raw) := by
  constructor
  · intro f1 f2 n1 n2 x
    exact normalizeSession_round f2 n2 _ (normalizeSession_wf f1 n1 x)
  · intro f1 f2 n1 n2 raw
    have hwfL := readStorage_wf f1 n1 raw
    have hsorted := readStorage_sorted f1 n1 raw
    generalize readStorage f1 n1 raw = L at hwfL hsorted ⊢
    have hany : (L.map sessionToJValue).any
        (fun v => match v with | JValue.null => true | _ => false) = false := by
      rw [List.any_eq_false]
      intro v hv
      rcases List.mem_map.mp hv with ⟨s, _, rfl⟩
      simp [sessionToJValue]
    have hid : L.map (normalizeSession f2 n2 ∘ sessionToJValue) = L.map id :=
      List.map_congr_left fun s hs =>
        normalizeSession_round f2 n2 s (hwfL s hs)
    simp only [readStorage, hany, Bool.false_eq_true, if_false, List.map_map]
    rw [hid, List.map_id]
    exact List.mergeSort_of_sorted hsorted
